import Mathlib

/-!
# properties-go: purchase flow, upload orchestration, property cache and login

A shallow embedding of `api/handler/transaction_handler.go`, `api/handler/properties.go`,
`api/handler/auth_handler.go`, `models/*.go`, `utils/images.go`, `utils/s3.go`,
`utils/propertiesCache.go` and `utils/auth.go`, followed by the properties proved about
it.

Go `uint`/`int` identifiers and indices are natural numbers (no arithmetic is done on
them; where a number passes through a float64 the rounding is explicit), Go strings are
`String`, and the relational store behind GORM is a record of tables, each a list of the
rows a query can see.
-/

namespace PropertiesGo

/-! ## models -/

/-- Go `models.PropertyType` (the `gorm.Model` timestamps are not represented). -/
structure PropertyType where
  ID : Nat
  Name : String
  deriving DecidableEq, Repr

/-- Go `models.Property`. `Price` is the bit pattern of the `float32`; no flow modelled
here inspects it. `PropertyType` is the association field: it is filled by `Preload`,
a stored row does not carry it. The associations `Owner` and `PropertyCategory` are not
represented: no decision of the flows below reads them. -/
structure Property where
  ID : Nat
  Name : String
  Description : String
  Status : String
  Price : Nat
  Location : String
  OwnerID : Nat
  ImagePrefix : String
  PropertyTypeID : Nat
  PropertyType : PropertyType
  PropertyCategoryID : Nat
  deriving DecidableEq, Repr

/-- Go `models.Transaction`; the association fields `Client`, `Owner`, `Property` are
never loaded by `CreateTransaction` and are left out. The Go field `Type` is `Type_` here,
`Type` being reserved. -/
structure Transaction where
  ID : Nat
  ClientID : Nat
  OwnerID : Nat
  PropertyID : Nat
  Type_ : String
  deriving DecidableEq, Repr

/-- Go `models.PropertyCategory`. -/
structure PropertyCategory where
  ID : Nat
  Name : String
  deriving DecidableEq, Repr

/-- Go `models.Role`. -/
structure Role where
  ID : Nat
  Name : String
  deriving DecidableEq, Repr

/-! ## the store behind `*gorm.DB` -/

/-- The committed content of the tables the handlers touch. A table holds the rows a
query sees; a row deleted through GORM (which only stamps `deleted_at`) is not among
them. -/
structure DB where
  properties : List Property
  propertyTypes : List PropertyType
  transactions : List Transaction
  propertyCategories : List PropertyCategory := []
  roles : List Role := []
  deriving DecidableEq, Repr

/-- What the database answers to the statements of one `CreateTransaction` call: which of
them return an error other than "record not found", and the primary key the sequence of
the transactions table hands to the insert. -/
structure DBEnv where
  firstErr : Bool
  createErr : Bool
  updateErr : Bool
  commitErr : Bool
  newID : Nat
  deriving DecidableEq, Repr

/-- The errors `tx.First` can return. -/
inductive FirstError where
  | ErrRecordNotFound
  | other
  deriving DecidableEq, Repr

/-- `Preload("PropertyType")`: the association is the row of `property_types` whose id is
`PropertyTypeID`, or stays the zero value when there is none. -/
def Preload (db : DB) (row : Property) : Property :=
  { row with
    PropertyType :=
      (db.propertyTypes.find? (fun t => t.ID == row.PropertyTypeID)).getD ⟨0, ""⟩ }

/-- `tx.Preload("PropertyType").First(&property, id)`. -/
def First (env : DBEnv) (db : DB) (id : Nat) : Except FirstError Property :=
  if env.firstErr then .error .other
  else
    match db.properties.find? (fun p => p.ID == id) with
    | none => .error .ErrRecordNotFound
    | some row => .ok (Preload db row)

/-- `tx.Create(&transaction)`: the insert fills in the primary key. Returns the record as
inserted and the tables of the open transaction, or `none` on error. -/
def Create (env : DBEnv) (tx : DB) (transaction : Transaction) : Option (Transaction × DB) :=
  if env.createErr then none
  else
    let inserted := { transaction with ID := env.newID }
    some (inserted, { tx with transactions := tx.transactions ++ [inserted] })

/-- The effect of `UPDATE properties SET status = newStatus WHERE id = id` on one row. -/
def setStatus (id : Nat) (newStatus : String) (row : Property) : Property :=
  if row.ID = id then { row with Status := newStatus } else row

/-- `tx.Model(&property).Update("status", newStatus)`: sets the column on the rows whose
primary key is `property.ID`. Returns the tables of the open transaction, or `none` on
error. -/
def Update (env : DBEnv) (tx : DB) (property : Property) (newStatus : String) : Option DB :=
  if env.updateErr then none
  else some { tx with properties := tx.properties.map (setStatus property.ID newStatus) }

/-! ## `TransactionHandler.CreateTransaction` -/

/-- What the handler reads from `*gin.Context`: `PropertyID` is `requestBody.PropertyID`
when `c.BindJSON` succeeds and `none` when it returns an error; `userId` is the value
`AuthMiddleware` stored under `"userId"`, `none` when the key is absent. -/
structure Context where
  PropertyID : Option Nat
  userId : Option Nat
  deriving DecidableEq, Repr

/-- The JSON answer written with `c.JSON`. -/
inductive Response where
  | error (status : Nat) (msg : String)
  | created (message : String) (transaction : Transaction)
  deriving DecidableEq, Repr

/-- `CreateTransaction` (transaction_handler.go, lines 18–105). The open database
transaction `tx` works on a copy of the tables; `tx.Rollback()` and a failed
`tx.Commit()` leave the committed tables `db` as they were, a successful commit replaces
them by the copy. The deferred `recover` never fires: `userId` is stored as a `uint` by
`AuthMiddleware`, so the type assertion cannot panic. Returns the response and the
committed tables after the call. -/
def CreateTransaction (db : DB) (env : DBEnv) (c : Context) : Response × DB :=
  match c.PropertyID with
  | none => (.error 400 "Invalid input", db)
  | some propertyID =>
    match c.userId with
    | none => (.error 401 "User not authenticated", db)
    | some clientID =>
      -- tx := t.DB.Begin()
      match First env db propertyID with
      | .error .ErrRecordNotFound => (.error 404 "Property not found", db)
      | .error .other => (.error 500 "Failed to fetch property", db)
      | .ok property =>
        if property.Status ≠ "available" then
          (.error 400 "Property is not available", db)
        else if property.OwnerID = clientID then
          (.error 400 "Cannot buy/rent your own property", db)
        else
          let transaction : Transaction :=
            { ID := 0
              ClientID := clientID
              OwnerID := property.OwnerID
              PropertyID := property.ID
              Type_ := property.PropertyType.Name }
          match Create env db transaction with
          | none => (.error 500 "Failed to create transaction", db)
          | some (transaction, tx) =>
            let newStatus := if property.PropertyType.Name = "rent" then "rented" else "sold"
            match Update env tx property newStatus with
            | none => (.error 500 "Failed to update property status", db)
            | some tx =>
              if env.commitErr then (.error 500 "Failed to complete transaction", db)
              else (.created ("Property " ++ newStatus ++ " successfully") transaction, tx)

/-! ## observations on the store -/

/-- Number of transaction records that refer to property `pid`. -/
def txCount (db : DB) (pid : Nat) : Nat :=
  (db.transactions.filter (fun t => t.PropertyID == pid)).length

/-- Status of the property a lookup by primary key `pid` returns, if any. -/
def statusOf (db : DB) (pid : Nat) : Option String :=
  (db.properties.find? (fun p => p.ID == pid)).map (fun p => p.Status)

/-- Name of the preloaded property type of the property with primary key `pid`. -/
def typeNameOf (db : DB) (pid : Nat) : Option String :=
  (db.properties.find? (fun p => p.ID == pid)).map (fun p => (Preload db p).PropertyType.Name)

/-- A property that is looked up with a status other than "available". -/
def Taken (db : DB) (pid : Nat) : Prop :=
  ∃ s, statusOf db pid = some s ∧ s ≠ "available"

/-- Every property has no transaction record, or exactly one and is taken. -/
def OneSale (db : DB) : Prop :=
  ∀ q, txCount db q = 0 ∨ (txCount db q = 1 ∧ Taken db q)

/-- One purchase call: what the database answers and what the request carries. -/
structure Call where
  env : DBEnv
  c : Context
  deriving DecidableEq, Repr

/-- The committed tables after a sequence of `CreateTransaction` calls, one after the
other. -/
def runCalls (db : DB) (calls : List Call) : DB :=
  calls.foldl (fun d call => (CreateTransaction d call.env call.c).2) db

/-! ## two `CreateTransaction` calls side by side

Each call issues its statements in program order: the lookup, the insert, the update and
the commit. Between two statements of one call the other call may run. The database is
PostgreSQL opened with GORM's defaults (api/server.go), `t.DB.Begin()` passes no
options and the lookup carries no locking clause: every statement reads the committed
tables, the writes of an open transaction become visible at its commit, and an update of
a row that another open transaction has updated waits until that transaction ends. -/

/-- Where a call stands: the next statement it will issue, with the locals computed so
far. -/
inductive Stage where
  | begun
  | loaded (property : Property)
  | inserted (property : Property) (transaction : Transaction)
  | updated (property : Property) (transaction : Transaction) (newStatus : String)
  | done (response : Response)
  deriving DecidableEq, Repr

/-- One running call of `CreateTransaction`, after the request has been bound. -/
structure Session where
  env : DBEnv
  propertyID : Nat
  clientID : Nat
  stage : Stage
  deriving DecidableEq, Repr

/-- A call that has just opened its database transaction. -/
def Session.start (env : DBEnv) (propertyID clientID : Nat) : Session :=
  ⟨env, propertyID, clientID, .begun⟩

/-- Whether `other` holds the row lock of property `id`: it has updated the row and has
not committed. -/
def holdsRowLock (other : Session) (id : Nat) : Bool :=
  match other.stage with
  | .updated property _ _ => property.ID == id
  | _ => false

/-- The next statement of session `s` (lines 43–104 of transaction_handler.go, one
statement at a time) on the committed tables `db`; `other` is the call running beside
it. A session waiting for a row lock does not move. -/
def Session.step (other : Session) (db : DB) (s : Session) : DB × Session :=
  match s.stage with
  | .begun =>
    match First s.env db s.propertyID with
    | .error .ErrRecordNotFound =>
      (db, { s with stage := .done (.error 404 "Property not found") })
    | .error .other => (db, { s with stage := .done (.error 500 "Failed to fetch property") })
    | .ok property =>
      if property.Status ≠ "available" then
        (db, { s with stage := .done (.error 400 "Property is not available") })
      else if property.OwnerID = s.clientID then
        (db, { s with stage := .done (.error 400 "Cannot buy/rent your own property") })
      else (db, { s with stage := .loaded property })
  | .loaded property =>
    if s.env.createErr then
      (db, { s with stage := .done (.error 500 "Failed to create transaction") })
    else
      let transaction : Transaction :=
        { ID := s.env.newID
          ClientID := s.clientID
          OwnerID := property.OwnerID
          PropertyID := property.ID
          Type_ := property.PropertyType.Name }
      (db, { s with stage := .inserted property transaction })
  | .inserted property transaction =>
    if holdsRowLock other property.ID then (db, s)
    else if s.env.updateErr then
      (db, { s with stage := .done (.error 500 "Failed to update property status") })
    else
      let newStatus := if property.PropertyType.Name = "rent" then "rented" else "sold"
      (db, { s with stage := .updated property transaction newStatus })
  | .updated property transaction newStatus =>
    if s.env.commitErr then
      (db, { s with stage := .done (.error 500 "Failed to complete transaction") })
    else
      let response := Response.created ("Property " ++ newStatus ++ " successfully") transaction
      ({ db with
          transactions := db.transactions ++ [transaction]
          properties := db.properties.map (setStatus property.ID newStatus) },
        { s with stage := .done response })
  | .done _ => (db, s)

/-- Two calls under a schedule: `false` lets the first call issue its next statement,
`true` the second. -/
def runSchedule (db : DB) (a b : Session) : List Bool → DB × Session × Session
  | [] => (db, a, b)
  | false :: rest => runSchedule (Session.step b db a).1 (Session.step b db a).2 b rest
  | true :: rest => runSchedule (Session.step a db b).1 a (Session.step a db b).2 rest

/-! ## utils/s3.go -/

/-- How a Go call ends: it returns a value, or `log.Fatal` ends the process
(`os.Exit(1)`) before it returns. -/
inductive Outcome (α : Type) where
  | returned (a : α)
  | exited
  deriving DecidableEq, Repr

/-- What the S3 side answers: whether putting, respectively deleting, the object
`bucket`/`key` gives an error (from `config.LoadDefaultConfig` or from the client call). -/
structure S3Env where
  putErr : String → String → Bool
  deleteErr : String → String → Bool

/-- A call that reached the blob store. -/
inductive S3Call where
  | put (bucketName key : String)
  | delete (bucketName key : String)
  deriving DecidableEq, Repr

/-- `UploadFileToS3` (s3.go, lines 13–28): every error goes to `log.Fatal`; when the call
returns, it returns `nil`. The file content plays no part in any decision and is not
represented. -/
def UploadFileToS3 (s3 : S3Env) (bucketName key : String) : Outcome (Option String) :=
  if s3.putErr bucketName key then .exited else .returned none

/-- `DeleteFileFromS3` (s3.go, lines 30–45): every error goes to `log.Fatal`; when the
call returns, it returns `nil`. -/
def DeleteFileFromS3 (s3 : S3Env) (bucketName key : String) : Outcome (Option String) :=
  if s3.deleteErr bucketName key then .exited else .returned none

/-- The objects in the blob store after a sequence of calls on an empty store, when every
call succeeds: a put adds the object, a delete removes it. -/
def stored (calls : List S3Call) : List (String × String) :=
  calls.foldl (fun objects call =>
    match call with
    | .put b k => if (b, k) ∈ objects then objects else objects ++ [(b, k)]
    | .delete b k => objects.filter (fun o => o ≠ (b, k))) []

/-! ## utils/images.go -/

/-- Go `*multipart.FileHeader`, as far as the upload reads it: the file name and whether
`Open` or the copy of the content fails (with which error text). -/
structure FileHeader where
  Filename : String
  openErr : Option String
  readErr : Option String
  deriving DecidableEq, Repr

/-- Go `FileUploadTask`. -/
structure FileUploadTask where
  Index : Nat
  File : FileHeader
  BucketName : String
  ImagePrefix : String
  deriving DecidableEq, Repr

/-- Go `FileUploadResult`; `Error` is `none` for `nil`. -/
structure FileUploadResult where
  Index : Nat
  Success : Bool
  Error : Option String
  FileKey : String
  deriving DecidableEq, Repr

/-- The scan of `filepath.Ext`, on the reversed path: stop at a path separator, return
the suffix from the last dot on. -/
def extScan : List Char → List Char → List Char
  | [], _ => []
  | c :: rest, acc =>
    if c = '/' then [] else if c = '.' then '.' :: acc else extScan rest (c :: acc)

/-- Go `filepath.Ext`: the suffix beginning at the final dot in the final element of the
path, empty if there is no dot. -/
def Ext (path : String) : String :=
  String.mk (extScan path.data.reverse [])

/-- `uploadFileToS3` (images.go, lines 105–129): the file key and the error, together
with the calls made to the blob store. -/
def uploadFileToS3 (s3 : S3Env) (task : FileUploadTask) :
    Outcome (String × Option String) × List S3Call :=
  match task.File.openErr with
  | some err => (.returned ("", some ("failed to open uploaded file: " ++ err)), [])
  | none =>
    match task.File.readErr with
    | some err => (.returned ("", some ("failed to read file content: " ++ err)), [])
    | none =>
      let fileKey :=
        task.ImagePrefix ++ "/image_" ++ toString task.Index ++ Ext task.File.Filename
      match UploadFileToS3 s3 task.BucketName fileKey with
      | .exited => (.exited, [.put task.BucketName fileKey])
      | .returned (some err) =>
        (.returned ("", some ("failed to upload file to S3: " ++ err)),
          [.put task.BucketName fileKey])
      | .returned none => (.returned (fileKey, none), [.put task.BucketName fileKey])

/-- What a worker has done when it stops: the results it sent, the calls it made to the
blob store, and whether it stopped because the process ended. -/
structure WorkerRun where
  results : List FileUploadResult
  calls : List S3Call
  exited : Bool
  deriving DecidableEq, Repr

/-- `fileUploadWorker` (images.go, lines 86–103) on the tasks it takes from the channel,
in the order it takes them. -/
def fileUploadWorker (s3 : S3Env) : List FileUploadTask → WorkerRun
  | [] => ⟨[], [], false⟩
  | task :: rest =>
    match uploadFileToS3 s3 task with
    | (.exited, calls) => ⟨[], calls, true⟩
    | (.returned (fileKey, err), calls) =>
      let result : FileUploadResult :=
        { Index := task.Index, Success := err.isNone, Error := err, FileKey := fileKey }
      let later := fileUploadWorker s3 rest
      ⟨result :: later.results, calls ++ later.calls, later.exited⟩

/-- `uploadedFiles[idx] = fileKey` on a Go `map[int]string`, kept as a list of entries
with distinct keys. -/
def mapSet (m : List (Nat × String)) (idx : Nat) (fileKey : String) : List (Nat × String) :=
  if m.any (fun e => e.1 == idx) then
    m.map (fun e => if e.1 == idx then (idx, fileKey) else e)
  else m ++ [(idx, fileKey)]

/-- The clean-up loop (images.go, lines 74–77) over the entries of `uploadedFiles`: the
delete calls made, and whether one of them ended the process. Go visits the entries of a
map in an unspecified order; the order of the list is one such order. -/
def cleanupUploaded (s3 : S3Env) (bucketName : String) :
    List (Nat × String) → List S3Call × Bool
  | [] => ([], false)
  | (_, fileKey) :: rest =>
    match DeleteFileFromS3 s3 bucketName fileKey with
    | .exited => ([.delete bucketName fileKey], true)
    | .returned _ =>
      let later := cleanupUploaded s3 bucketName rest
      (.delete bucketName fileKey :: later.1, later.2)

/-- `cleanupS3Files` of package `utils` (images.go, lines 131–162), which no function
calls: the keys of the indices below `count` are queued in index order and up to three
workers pass them to `DeleteFileFromS3`. `order` lists the queue positions in the order
in which the deletes are made; the result is the delete calls made, and whether one of
them ended the process. -/
def utils.cleanupS3Files (s3 : S3Env) (bucketName imagePrefix : String) (count : Nat)
    (order : List Nat) : List S3Call × Bool :=
  let tasks := (List.range count).map (fun i => imagePrefix ++ "/image_" ++ toString i)
  cleanupUploaded s3 bucketName
    (order.filterMap (fun i => (tasks[i]?).map (fun fileKey => (i, fileKey))))

/-- What `UploadFilesWithWorkerPool` has done when it stops: whether it returned (and
what), the JSON answer it wrote, if any, and the calls made to the blob store. -/
structure PoolRun where
  ret : Outcome Bool
  response : Option Response
  calls : List S3Call
  deriving DecidableEq, Repr

/-- Whether the loop treats a result as a failure (images.go, line 69). -/
def FileUploadResult.failed (result : FileUploadResult) : Bool :=
  result.Error != none || !result.Success

/-- `fmt.Sprintf("%v", err)` for a Go `error`. -/
def errorText : Option String → String
  | none => "<nil>"
  | some err => err

/-- The loop over the results channel (images.go, lines 66–83), on the results in the
order they are received, starting from the entries `uploadedFiles` collected so far. -/
def processResults (s3 : S3Env) (bucketName : String) (uploadedFiles : List (Nat × String)) :
    List FileUploadResult → PoolRun
  | [] => ⟨.returned true, none, []⟩
  | result :: rest =>
    if result.failed then
      let cleanup := cleanupUploaded s3 bucketName uploadedFiles
      { ret := if cleanup.2 then .exited else .returned false
        response := some (.error 500
          ("Failed to upload file " ++ toString result.Index ++ ": " ++ errorText result.Error))
        calls := cleanup.1 }
    else
      processResults s3 bucketName (mapSet uploadedFiles result.Index result.FileKey) rest

/-- The tasks queued in lines 56–63, in queue order. -/
def queueTasks (bucketName imagePrefix : String) (files : List FileHeader) :
    List FileUploadTask :=
  files.enum.map (fun e => ⟨e.1, e.2, bucketName, imagePrefix⟩)

/-- The results the workers send for the queued tasks, by task. With no worker nothing is
taken from the queue; with at least one, every task is taken once, and its result does
not depend on which worker takes it. -/
def poolRun (s3 : S3Env) (numWorkers : Nat) (tasks : List FileUploadTask) : WorkerRun :=
  if numWorkers = 0 then ⟨[], [], false⟩ else fileUploadWorker s3 tasks

/-- The results in the order the main goroutine receives them, when `order` lists the
task indices in that order. -/
def arrival (sent : List FileUploadResult) (order : List Nat) : List FileUploadResult :=
  order.filterMap (fun i => sent[i]?)

/-- `UploadFilesWithWorkerPool` (images.go, lines 32–84). `order` is the order in which
the results of the tasks arrive on the results channel. A run in which a put ends the
process is reported as `exited`, whether or not the main goroutine had returned before. -/
def UploadFilesWithWorkerPool (s3 : S3Env) (bucketName imagePrefix : String)
    (files : List FileHeader) (order : List Nat) : PoolRun :=
  let numWorkers := if files.length < 3 then files.length else 3
  let tasks := queueTasks bucketName imagePrefix files
  let pool := poolRun s3 numWorkers tasks
  if pool.exited then ⟨.exited, none, pool.calls⟩
  else
    let main := processResults s3 bucketName [] (arrival pool.results order)
    ⟨main.ret, main.response, pool.calls ++ main.calls⟩

/-- The results the main goroutine of `UploadFilesWithWorkerPool` receives, in order. -/
def received (s3 : S3Env) (bucketName imagePrefix : String) (files : List FileHeader)
    (order : List Nat) : List FileUploadResult :=
  arrival
    (poolRun s3 (if files.length < 3 then files.length else 3)
      (queueTasks bucketName imagePrefix files)).results
    order

/-- Whether a put by a worker of `UploadFilesWithWorkerPool` ends the process. -/
def putEndsProcess (s3 : S3Env) (bucketName imagePrefix : String) (files : List FileHeader) :
    Bool :=
  (poolRun s3 (if files.length < 3 then files.length else 3)
    (queueTasks bucketName imagePrefix files)).exited

/-- The keys passed to `DeleteFileFromS3`, in call order. -/
def deletedKeys (calls : List S3Call) : List String :=
  calls.filterMap (fun call => match call with
    | .delete _ key => some key
    | .put _ _ => none)

/-- The keys passed to `UploadFileToS3`, in call order. -/
def putKeys (calls : List S3Call) : List String :=
  calls.filterMap (fun call => match call with
    | .put _ key => some key
    | .delete _ _ => none)

/-- A blob store that answers every call without error. -/
def okS3 : S3Env := { putErr := fun _ _ => false, deleteErr := fun _ _ => false }

/-- The number written by a list of decimal digit characters, most significant first,
paired with the weight of the next place to the left. -/
def decimalValue : List Char → Nat × Nat
  | [] => (0, 1)
  | c :: cs =>
    ((decimalValue cs).1 + (c.toNat - 48) * (decimalValue cs).2, 10 * (decimalValue cs).2)

/-- A blob store that fails every put of `key` and nothing else. -/
def putFailsFor (key : String) : S3Env :=
  { putErr := fun _ k => k == key, deleteErr := fun _ _ => false }

/-- A blob store that fails every delete of `key` and nothing else. -/
def deleteFailsFor (key : String) : S3Env :=
  { putErr := fun _ _ => false, deleteErr := fun _ k => k == key }

/-- A file that uploads. -/
def goodFile (name : String) : FileHeader := ⟨name, none, none⟩

/-- A file whose `Open` fails. -/
def badFile (name : String) : FileHeader := ⟨name, some "file closed", none⟩

/-! ## utils/propertiesCache.go -/

/-- The keys of a Go `map[string]string` given by a list of entries, each key once. -/
def mapKeys (params : List (String × String)) : List String :=
  (params.map Prod.fst).dedup

/-- `params[k]` on a Go `map[string]string` given by a list of entries: the value of the
first entry with key `k`, the empty string when there is none. -/
def mapGet (params : List (String × String)) (k : String) : String :=
  (params.lookup k).getD ""

/-- `sort.Strings`: ascending in Go's string order, which compares byte by byte; on
UTF-8 text that is the lexicographic order of the code points. -/
def sortStrings (l : List String) : List String :=
  l.insertionSort (fun a b => a.data ≤ b.data)

/-- `GeneratePropertiesCacheKey` (propertiesCache.go, lines 10–31). Go visits the keys of
the map in an unspecified order; they are sorted before use. -/
def GeneratePropertiesCacheKey (params : List (String × String)) : String :=
  let keys := sortStrings (mapKeys params)
  let keyParts := keys.filterMap (fun k =>
    if mapGet params k ≠ "" then some (k ++ ":" ++ mapGet params k) else none)
  if keyParts.length = 0 then "properties:all"
  else "properties:" ++ ":".intercalate keyParts

/-- The cache key as the specification words it: the canonical key when no parameter has
a non-empty value, otherwise the `name:value` pairs of the non-empty parameters in
ascending order of name, joined by colons after `properties:`. -/
def cacheKeySpec (params : List (String × String)) : String :=
  let nonEmpty := (mapKeys params).filter (fun k => mapGet params k ≠ "")
  if nonEmpty = [] then "properties:all"
  else
    "properties:" ++
      ":".intercalate ((sortStrings nonEmpty).map (fun k => k ++ ":" ++ mapGet params k))

/-- The non-empty parameters of a map with their values, ascending by name: the pairs
from which `GeneratePropertiesCacheKey` builds the parts of the key. -/
def nonEmptyParams (params : List (String × String)) : List (String × String) :=
  (sortStrings (mapKeys params)).filterMap (fun k =>
    if mapGet params k ≠ "" then some (k, mapGet params k) else none)

/-- The characters of the `name:value` parts of the given pairs joined by colons. -/
def joinPairs : List (String × String) → List Char
  | [] => []
  | [e] => e.1.data ++ ':' :: e.2.data
  | e :: rest => e.1.data ++ ':' :: e.2.data ++ ':' :: joinPairs rest

/-! ## the cache behind `*redis.Client` and the read path -/

/-- How a handler of `PropertiesHandler` ends a request: with an answer written by
`c.JSON`, or unwound by a run-time panic. `written` stands for a return without an
answer of the handler's own, after `UploadFilesWithWorkerPool` wrote `r`; `panicked`
stands for the nil pointer dereference of a method call on a nil `*redis.Client`, which
the `Recovery` middleware of `gin.Default()` (routes.go, line 11) turns into status
500. -/
inductive Reply where
  | error (status : Nat) (msg : String)
  | message (status : Nat) (msg : String) (data : Option Property)
  | properties (properties : List Property) (source : String)
  | written (r : Option Response)
  | panicked
  deriving DecidableEq, Repr

/-- The content of the Redis database: key and stored JSON text, the text being
represented by the list of properties it encodes. The expiry of an entry (120 minutes
after it is set) is not represented. A handler whose client is nil never reaches it. -/
structure Redis where
  entries : List (String × List Property)
  deriving DecidableEq, Repr

/-- The cache side of a `PropertiesHandler` during one request: whether the field
`Redis` of the handler is nil, as `StartServer` leaves it when Redis does not answer the
ping at start-up (server.go, lines 60–65), which of the commands return an error (other
than `redis.Nil`), and whether encoding or decoding the JSON text fails. -/
structure CacheEnv where
  getErr : Bool
  setErr : Bool
  keysErr : Bool
  delErr : Bool
  marshalErr : Bool
  unmarshalErr : Bool
  nilClient : Bool := false
  deriving DecidableEq, Repr

/-- `GET key`. -/
def Redis.get (r : Redis) (key : String) : Option (List Property) :=
  r.entries.lookup key

/-- `SET key value`. -/
def Redis.set (r : Redis) (key : String) (value : List Property) : Redis :=
  ⟨(key, value) :: r.entries.filter (fun e => e.1 ≠ key)⟩

/-- `cacheProperties` (properties.go, lines 29–38) on a client that is not nil: whether
it returns an error, and the cache afterwards. `GetProperties` does not get as far as
this call with a nil client. -/
def cacheProperties (r : Redis) (cache : CacheEnv) (key : String)
    (properties : List Property) : Bool × Redis :=
  if cache.marshalErr then (true, r)
  else if cache.setErr then (true, r)
  else (false, r.set key properties)

/-- `getPropertiesFromCache` (properties.go, lines 41–59) on a client that is not nil:
an error, or the cached list, `none` standing for the `nil` returned when the key does
not exist. With a nil client its first statement, `p.Redis.Get` (line 43), panics; the
caller `GetProperties` holds that case. -/
def getPropertiesFromCache (r : Redis) (cache : CacheEnv) (key : String) :
    Except Unit (Option (List Property)) :=
  if cache.getErr then .error ()
  else
    match r.get key with
    | none => .ok none
    | some properties => if cache.unmarshalErr then .error () else .ok (some properties)

/-- The query parameters `GetProperties` reads with `c.Query`, the empty string when a
parameter is absent. -/
structure Filters where
  categoryId : String
  typeId : String
  description : String
  minPrice : String
  maxPrice : String
  deriving DecidableEq, Repr

/-- The parameter map built in lines 88–94 of properties.go. -/
def Filters.params (f : Filters) : List (String × String) :=
  [("categoryId", f.categoryId), ("typeId", f.typeId), ("description", f.description),
   ("minPrice", f.minPrice), ("maxPrice", f.maxPrice)]

/-- No query parameter of the request contains a colon. -/
def Filters.colonFree (f : Filters) : Prop :=
  ∀ v ∈ [f.categoryId, f.typeId, f.description, f.minPrice, f.maxPrice], ':' ∉ v.data

/-- Go `strconv.Atoi`: an optional sign followed by decimal digits, within the range of
a 64-bit `int`; `none` for an error. -/
def Atoi (s : String) : Option Int :=
  let signed : Bool × List Char :=
    match s.data with
    | '-' :: ds => (true, ds)
    | '+' :: ds => (false, ds)
    | ds => (false, ds)
  if signed.2 ≠ [] ∧ signed.2.all Char.isDigit then
    let n := (decimalValue signed.2).1
    if signed.1 then (if n ≤ 2 ^ 63 then some (-(n : Int)) else none)
    else (if n < 2 ^ 63 then some (n : Int) else none)
  else none

/-- What the database side answers to the list query: how it evaluates the conditions
that are not modelled here (`LIKE` and the comparisons of the price, a floating-point
number, with the bound `strconv.ParseFloat` returns, `none` for a parse error), and
whether the query fails. -/
structure QueryEnv where
  like : String → String → Bool
  ParseFloat : String → Option Nat
  priceGE : Nat → Nat → Bool
  priceLE : Nat → Nat → Bool
  findErr : Bool

/-- The condition added for `categoryId` or `typeId` (lines 114–124 of properties.go):
none when the parameter is empty or is not an integer. -/
def intCondition (param : String) (column : Property → Nat) : List (Property → Bool) :=
  if param ≠ "" then
    match Atoi param with
    | some id => [fun (row : Property) => ((column row : Nat) : Int) == id]
    | none => []
  else []

/-- The condition added for `minPrice` or `maxPrice` (lines 132–142 of properties.go):
none when the parameter is empty or is not a number. -/
def priceCondition (q : QueryEnv) (param : String) (compare : Nat → Nat → Bool) :
    List (Property → Bool) :=
  if param ≠ "" then
    match q.ParseFloat param with
    | some price => [fun (row : Property) => compare row.Price price]
    | none => []
  else []

/-- The conditions added to the query in lines 113–142 of properties.go. -/
def Filters.conditions (q : QueryEnv) (f : Filters) : List (Property → Bool) :=
  intCondition f.categoryId (fun row => row.PropertyCategoryID) ++
  intCondition f.typeId (fun row => row.PropertyTypeID) ++
  (if f.description ≠ "" then
      [fun (row : Property) => q.like ("%" ++ f.description ++ "%") row.Description]
    else []) ++
  priceCondition q f.minPrice q.priceGE ++
  priceCondition q f.maxPrice q.priceLE

/-- `query.Find(&properties)` (properties.go, lines 111 and 146): the rows that satisfy
every condition, with their associations loaded, or `none` when the query fails. -/
def Find (db : DB) (q : QueryEnv) (conditions : List (Property → Bool)) :
    Option (List Property) :=
  if q.findErr then none
  else
    some ((db.properties.filter (fun row => conditions.all (fun cond => cond row))).map
      (Preload db))

/-- What `GetProperties` has done when it returns: its answer, the cache afterwards, and
whether it ran the database query. -/
structure ReadRun where
  reply : Reply
  redis : Redis
  queried : Bool
  deriving DecidableEq, Repr

/-- `GetProperties` (properties.go, lines 79–157). With a nil client the call of
`getPropertiesFromCache` in line 100 panics in `p.Redis.Get`, before the database is
queried. -/
def GetProperties (db : DB) (r : Redis) (cache : CacheEnv) (q : QueryEnv) (f : Filters) :
    ReadRun :=
  let cacheKey := GeneratePropertiesCacheKey f.params
  if cache.nilClient then ⟨.panicked, r, false⟩
  else
    match getPropertiesFromCache r cache cacheKey with
    | .ok (some cachedProperties) => ⟨.properties cachedProperties "cache", r, false⟩
    | _ =>
      match Find db q (f.conditions q) with
      | none => ⟨.error 500 "Failed to fetch properties", r, true⟩
      | some properties =>
        ⟨.properties properties "database", (cacheProperties r cache cacheKey properties).2,
          true⟩

/-- A cache side that answers every command without error. -/
def okCache : CacheEnv :=
  { getErr := false, setErr := false, keysErr := false, delErr := false,
    marshalErr := false, unmarshalErr := false }

/-- A database side on which the list query succeeds; the conditions it is asked about
are not used by the examples, which filter on nothing. -/
def okQuery : QueryEnv :=
  { like := fun _ _ => true, ParseFloat := fun _ => none, priceGE := fun _ _ => true,
    priceLE := fun _ _ => true, findErr := false }

/-- A request without filter parameters. -/
def noFilters : Filters := ⟨"", "", "", "", ""⟩

/-! ## `PropertiesHandler`: the write paths -/

/-- Whether a key matches the pattern `properties:*` of `KEYS`: the pattern has no
special character before its final `*`, so it matches the keys that begin with
`properties:`. -/
def matchesPropertiesPattern (key : String) : Bool :=
  "properties:".data.isPrefixOf key.data

/-- `invalidatePropertyCache` (properties.go, lines 62–76) on a client that is not nil:
whether it returns an error, and the cache afterwards. With a nil client its first
statement, `p.Redis.Keys` (line 65), panics; the caller `CreateProperty` holds that
case. -/
def invalidatePropertyCache (r : Redis) (cache : CacheEnv) : Bool × Redis :=
  if cache.keysErr then (true, r)
  else
    let keys := (r.entries.map Prod.fst).filter matchesPropertiesPattern
    if keys.length > 0 then
      if cache.delErr then (true, r)
      else (false, ⟨r.entries.filter (fun e => !keys.contains e.1)⟩)
    else (false, r)

/-- The multipart form of a creation request: the posted fields, the empty string when a
field is absent, and the files posted as `images`. -/
structure CreateForm where
  name : String
  description : String
  location : String
  price : String
  propertyTypeId : String
  propertyCategoryId : String
  images : List FileHeader
  deriving DecidableEq, Repr

/-- What `CreateProperty` reads from `*gin.Context`: the form, `none` when
`ParseMultipartForm` fails, and the `userId` stored by `AuthMiddleware`. -/
structure CreateRequest where
  form : Option CreateForm
  userId : Option Nat
  deriving DecidableEq, Repr

/-- What the surroundings answer during one `CreateProperty` call: the price parsed by
`strconv.ParseFloat(s, 32)` as the bit pattern of the `float32` (`none` for an error),
which database statements fail, the primary key the sequence of the properties table
hands out, the configured bucket, the blob store, the order in which upload results
arrive, and the cache side. -/
structure CreateEnv where
  ParseFloat : String → Option Nat
  typeErr : Bool
  categoryErr : Bool
  createErr : Bool
  deleteErr : Bool
  saveErr : Bool
  newID : Nat
  S3Bucket : String
  s3 : S3Env
  order : List Nat
  cache : CacheEnv

/-- Go `strconv.ParseUint(s, 10, 32)`: decimal digits only, below 2^32; `none` for an
error. -/
def ParseUint32 (s : String) : Option Nat :=
  if s.data ≠ [] ∧ s.data.all Char.isDigit then
    if (decimalValue s.data).1 < 2 ^ 32 then some (decimalValue s.data).1 else none
  else none

/-- The first part of `CreateProperty` (properties.go, lines 179–255): validation of the
form and creation of the property record. Returns the answer that ends the request, or
the record as inserted and the tables with it. -/
def createPropertyRecord (db : DB) (env : CreateEnv) (req : CreateRequest) :
    Except Reply (Property × DB) :=
  match req.form with
  | none => .error (.error 400 "Failed to parse multipart form")
  | some form =>
    if form.name = "" ∨ form.description = "" ∨ form.location = "" ∨ form.price = "" ∨
        form.propertyTypeId = "" ∨ form.propertyCategoryId = "" then
      .error (.error 400 "All fields are required")
    else
      match env.ParseFloat form.price with
      | none => .error (.error 400 "Invalid price format")
      | some price =>
        match ParseUint32 form.propertyTypeId with
        | none => .error (.error 400 "Invalid property type ID")
        | some propertyTypeID =>
          match ParseUint32 form.propertyCategoryId with
          | none => .error (.error 400 "Invalid property category ID")
          | some propertyCategoryID =>
            if env.typeErr ∨
                (db.propertyTypes.find? (fun t => t.ID == propertyTypeID)).isNone then
              .error (.error 400 "Property type does not exist")
            else if env.categoryErr ∨
                (db.propertyCategories.find? (fun t => t.ID == propertyCategoryID)).isNone then
              .error (.error 400 "Property category does not exist")
            else
              match req.userId with
              | none => .error (.error 401 "User not authenticated")
              | some userId =>
                if env.createErr then .error (.error 500 "Failed to create property")
                else
                  let property : Property :=
                    { ID := env.newID
                      Name := form.name
                      Description := form.description
                      Status := "available"
                      Price := price
                      Location := form.location
                      OwnerID := userId
                      ImagePrefix := ""
                      PropertyTypeID := propertyTypeID
                      PropertyType := ⟨0, ""⟩
                      PropertyCategoryID := propertyCategoryID }
                  .ok (property, { db with properties := db.properties ++ [property] })

/-- `p.DB.Delete(&property)` as `CreateProperty` uses it, the returned error ignored: the
row with the record's primary key leaves the table unless the statement fails; GORM
refuses it when that key is zero. -/
def deleteRecord (deleteErr : Bool) (db : DB) (property : Property) : DB :=
  if deleteErr ∨ property.ID = 0 then db
  else { db with properties := db.properties.filter (fun row => row.ID ≠ property.ID) }

/-- `p.DB.Save(&property)`: every column of the row with the record's primary key is
set from the record; when no row has that key the record is inserted. `none` for an
error. -/
def Save (saveErr : Bool) (db : DB) (property : Property) : Option DB :=
  if saveErr then none
  else if db.properties.any (fun row => row.ID == property.ID) then
    some { db with
      properties := db.properties.map (fun row => if row.ID = property.ID then property else row) }
  else some { db with properties := db.properties ++ [property] }

/-- `cleanupS3Files` of package `handler` (properties.go, lines 410–415): one delete per
index below `count`, for the key made of the prefix and the index; the delete calls
made, and whether one of them ended the process. -/
def cleanupS3Files (s3 : S3Env) (bucketName imagePrefix : String) (count : Nat) :
    List S3Call × Bool :=
  cleanupUploaded s3 bucketName
    ((List.range count).map (fun i => (i, imagePrefix ++ "/image_" ++ toString i)))

/-- What `CreateProperty` has done when it stops: its answer (or the end of the
process), the tables, the cache and the calls made to the blob store. -/
structure CreateRun where
  reply : Outcome Reply
  db : DB
  redis : Redis
  calls : List S3Call
  deriving DecidableEq, Repr

/-- `CreateProperty` (properties.go, lines 179–298). The statements on `p.DB` are not
inside a database transaction: each takes effect at once. With a nil client the call of
`invalidatePropertyCache` in line 292 panics after the record has been saved. -/
def CreateProperty (db : DB) (r : Redis) (env : CreateEnv) (req : CreateRequest) :
    CreateRun :=
  match createPropertyRecord db env req with
  | .error reply => ⟨.returned reply, db, r, []⟩
  | .ok (property, db1) =>
    let files := (req.form.map (fun form => form.images)).getD []
    if files.length = 0 then
      ⟨.returned (.error 400 "At least one image is required"),
        deleteRecord env.deleteErr db1 property, r, []⟩
    else
      let imagePrefix := "property/property_" ++ toString property.ID
      let property := { property with ImagePrefix := imagePrefix }
      let upload := UploadFilesWithWorkerPool env.s3 env.S3Bucket imagePrefix files env.order
      match upload.ret with
      | .exited => ⟨.exited, db1, r, upload.calls⟩
      | .returned false =>
        ⟨.returned (.written upload.response), deleteRecord env.deleteErr db1 property, r,
          upload.calls⟩
      | .returned true =>
        match Save env.saveErr db1 property with
        | none =>
          let cleanup := cleanupS3Files env.s3 env.S3Bucket imagePrefix files.length
          ⟨if cleanup.2 then .exited
            else .returned (.error 500 "Failed to update property with image information"),
            db1, r, upload.calls ++ cleanup.1⟩
        | some db2 =>
          if env.cache.nilClient then ⟨.returned .panicked, db2, r, upload.calls⟩
          else
            ⟨.returned (.message 201 "Property created successfully" (some property)), db2,
              (invalidatePropertyCache r env.cache).2, upload.calls⟩

/-- What `UpdateProperty` and `DeleteProperty` read from `*gin.Context`: the path
parameter `id`, the `userId` and `roleId` stored by `AuthMiddleware`, and for an update
the bound JSON body, `none` when `BindJSON` fails. The body is a `models.Property`,
whose embedded `gorm.Model` is bound too: `deletedAt` tells whether the body carries a
`DeletedAt` time. -/
structure ModifyRequest where
  id : String
  userId : Option Nat
  roleId : Option Nat
  body : Option Property
  deletedAt : Bool := false
  deriving DecidableEq, Repr

/-- What the database answers during one `UpdateProperty` or `DeleteProperty` call: which
statements fail, and the rows a path parameter that is not a number selects when GORM
hands it to the database as a condition (`none` when the database rejects it). -/
structure ModifyEnv where
  firstErr : Bool
  rawWhere : String → Option (Property → Bool)
  roleErr : Bool
  updatesErr : Bool
  countErr : Bool
  deleteErr : Bool

/-- `p.DB.First(&property, id)` with the path parameter: GORM takes a string that
`strconv.Atoi` accepts as the primary key and any other string as a condition. The first
matching row in table order is returned. -/
def firstByParam (env : ModifyEnv) (db : DB) (id : String) : Except FirstError Property :=
  if env.firstErr then .error .other
  else
    let condition : Option (Property → Bool) :=
      match Atoi id with
      | some n => some (fun (row : Property) => ((row.ID : Nat) : Int) == n)
      | none => env.rawWhere id
    match condition with
    | none => .error .other
    | some cond =>
      match db.properties.find? cond with
      | none => .error .ErrRecordNotFound
      | some row => .ok row

/-- `canModifyProperty` (properties.go, lines 382–408). -/
def canModifyProperty (env : ModifyEnv) (db : DB) (userId roleId : Option Nat)
    (ownerID : Nat) : Bool :=
  match userId with
  | none => false
  | some userID =>
    if userID = ownerID then true
    else
      match roleId with
      | none => false
      | some roleID =>
        if env.roleErr then false
        else
          match db.roles.find? (fun role => role.ID == roleID) with
          | none => false
          | some role => role.Name == "admin"

/-- The row after `Updates(updatedProperty)`: GORM sets the columns whose field in the
given struct is not the zero value. -/
def applyUpdates (updatedProperty row : Property) : Property :=
  { ID := if updatedProperty.ID ≠ 0 then updatedProperty.ID else row.ID
    Name := if updatedProperty.Name ≠ "" then updatedProperty.Name else row.Name
    Description :=
      if updatedProperty.Description ≠ "" then updatedProperty.Description else row.Description
    Status := if updatedProperty.Status ≠ "" then updatedProperty.Status else row.Status
    Price := if updatedProperty.Price ≠ 0 then updatedProperty.Price else row.Price
    Location := if updatedProperty.Location ≠ "" then updatedProperty.Location else row.Location
    OwnerID := if updatedProperty.OwnerID ≠ 0 then updatedProperty.OwnerID else row.OwnerID
    ImagePrefix :=
      if updatedProperty.ImagePrefix ≠ "" then updatedProperty.ImagePrefix else row.ImagePrefix
    PropertyTypeID :=
      if updatedProperty.PropertyTypeID ≠ 0 then updatedProperty.PropertyTypeID
      else row.PropertyTypeID
    PropertyType := row.PropertyType
    PropertyCategoryID :=
      if updatedProperty.PropertyCategoryID ≠ 0 then updatedProperty.PropertyCategoryID
      else row.PropertyCategoryID }

/-- `UpdateProperty` (properties.go, lines 302–341). The update addresses the rows whose
primary key is that of the record found; GORM refuses it when that key is zero. When the
body carries a `DeletedAt` time the update stamps `deleted_at`, and the row is no longer
among the rows a query sees. -/
def UpdateProperty (db : DB) (env : ModifyEnv) (req : ModifyRequest) : Reply × DB :=
  match firstByParam env db req.id with
  | .error .ErrRecordNotFound => (.error 404 "Property not found", db)
  | .error .other => (.error 500 "Failed to fetch property", db)
  | .ok property =>
    if !canModifyProperty env db req.userId req.roleId property.OwnerID then
      (.error 403 "Not authorized to update this property", db)
    else
      match req.body with
      | none => (.error 400 "Invalid input", db)
      | some body =>
        let updatedProperty :=
          { body with ID := property.ID, OwnerID := property.OwnerID, Status := property.Status }
        if env.updatesErr ∨ property.ID = 0 then (.error 500 "Failed to update property", db)
        else
          (.message 200 "Property updated successfully"
              (some (applyUpdates updatedProperty property)),
            { db with
              properties := (db.properties.map (fun row =>
                if row.ID = property.ID then applyUpdates updatedProperty row else row)).filter
                  (fun row => !(req.deletedAt && row.ID == property.ID)) })

/-- `DeleteProperty` (properties.go, lines 344–379). The error of the count is ignored,
the count then stays zero. -/
def DeleteProperty (db : DB) (env : ModifyEnv) (req : ModifyRequest) : Reply × DB :=
  match firstByParam env db req.id with
  | .error .ErrRecordNotFound => (.error 404 "Property not found", db)
  | .error .other => (.error 500 "Failed to fetch property", db)
  | .ok property =>
    if !canModifyProperty env db req.userId req.roleId property.OwnerID then
      (.error 403 "Not authorized to delete this property", db)
    else
      let transactionCount := if env.countErr then 0 else txCount db property.ID
      if transactionCount > 0 then
        (.error 400 "Cannot delete property with existing transactions", db)
      else if env.deleteErr ∨ property.ID = 0 then (.error 500 "Failed to delete property", db)
      else
        (.message 200 "Property deleted successfully" none,
          { db with properties := db.properties.filter (fun row => row.ID ≠ property.ID) })

/-! ## models/user.go -/

/-- A row of the users table, `models.User`; the `Role` association is not loaded by the
code modelled here and is left out. -/
structure User where
  ID : Nat
  Name : String
  Email : String
  Password : String
  RoleID : Nat
  deriving DecidableEq, Repr

/-- The zero value of `models.User`. -/
def zeroUser : User := { ID := 0, Name := "", Email := "", Password := "", RoleID := 0 }

/-! ## the JWT library, utils/auth.go and api/handler/auth_handler.go -/

/-- How many low bits of `n` a float64, with its 53 significant bits, cannot hold. A
`uint` has 64 bits, so 64 halvings are enough. -/
def droppedBits : Nat → Nat → Nat
  | 0, _ => 0
  | fuel + 1, n => if n < 2 ^ 53 then 0 else droppedBits fuel (n / 2) + 1

/-- The float64 that `encoding/json` decodes from the JSON number written for the
unsigned integer `n` below 2^64, given by its value, an integer: `n` rounded to 53
significant bits, ties to the even neighbour. For `n` from 2^64 - 1024 on the value is
2^64. -/
def float64OfUint (n : Nat) : Nat :=
  let e := droppedBits 64 n
  let q := n / 2 ^ e
  let r := n % 2 ^ e
  let q' := if 2 * r > 2 ^ e ∨ (2 * r = 2 ^ e ∧ q % 2 = 1) then q + 1 else q
  q' * 2 ^ e

/-- The Go conversion `uint(f)` to the 64-bit `uint`, on a float64 whose value is the
integer `value`, at most 2^64: the value itself below 2^64. For the value 2^64 the
language leaves the result to the implementation; the code the Go compiler emits for
amd64 returns 2^63. -/
def uintOfFloat64 (value : Nat) : Nat :=
  if value < 2 ^ 64 then value else 2 ^ 63

/-- The value of a claim in a parsed `jwt.MapClaims`, as far as `verifyToken` tells
values apart: a float64, known through the result `toUint` of the Go conversion
`uint(f)`, or a value of another type. -/
inductive ClaimValue where
  | float64 (toUint : Nat)
  | other
  deriving DecidableEq, Repr

/-- The claims `Login` signs (auth_handler.go, lines 47–51): two `uint`, below 2^64, and
the expiry in Unix seconds, an `int64`. -/
structure LoginClaims where
  userId : Nat
  roleId : Nat
  exp : Nat
  deriving DecidableEq, Repr

/-- The `jwt.MapClaims` that decoding the JSON of the signed claims yields: every number
is decoded as a float64. -/
def LoginClaims.decoded (claims : LoginClaims) : List (String × ClaimValue) :=
  [("exp", .float64 (uintOfFloat64 (float64OfUint claims.exp))),
   ("roleId", .float64 (uintOfFloat64 (float64OfUint claims.roleId))),
   ("userId", .float64 (uintOfFloat64 (float64OfUint claims.userId)))]

/-- A parsed `*jwt.Token`, as far as `verifyToken` reads it; `Claims` is `none` when
the claims are not a `jwt.MapClaims`. -/
structure Token where
  Valid : Bool
  Claims : Option (List (String × ClaimValue))
  deriving DecidableEq, Repr

/-- The library `github.com/golang-jwt/jwt/v5` with the signing method HS256:
`SignedString` on the claims and the key, `none` for an error, and `jwt.Parse` on the
token string, the key the key function returns and the time of the call in Unix
seconds. -/
structure JWT where
  SignedString : LoginClaims → String → Option String
  Parse : String → String → Nat → Except String Token

/-- The contract of the library on which a round trip rests: for claims that `Login` can
build, two `uint` and an expiry that a float64 holds exactly, a token signed with a key
parses with the same key, before the expiry it carries, into a valid token with the
decoded claims. -/
def JWT.RoundTrip (jwt : JWT) : Prop :=
  ∀ (claims : LoginClaims) (key tokenString : String) (now : Nat),
    claims.userId < 2 ^ 64 → claims.roleId < 2 ^ 64 → claims.exp ≤ 2 ^ 53 →
    jwt.SignedString claims key = some tokenString → now < claims.exp →
      jwt.Parse tokenString key now = .ok ⟨true, some claims.decoded⟩

/-- `verifyToken` (utils/auth.go, lines 23–56) at the time `now`: the user id and the
role id, or the error. -/
def verifyToken (jwt : JWT) (now : Nat) (tokenString : String) : Except String (Nat × Nat) :=
  match jwt.Parse tokenString "secret-key" now with
  | .error err => .error err
  | .ok token =>
    if !token.Valid then .error "invalid token"
    else
      match token.Claims with
      | some claims =>
        match claims.lookup "userId" with
        | some (.float64 userId) =>
          let roleId :=
            match claims.lookup "roleId" with
            | some (.float64 roleIdFloat) => roleIdFloat
            | _ => 0
          .ok (userId, roleId)
        | _ => .error "invalid userId claim"
      | none => .error "An error has occurred"

/-- Go `s[n:]` on a string: the text from byte offset `n` on; `none` stands for the
run-time panic "slice bounds out of range", raised when `n` exceeds the length of `s` in
bytes. When the offset falls inside a character of several bytes the remainder is not
text; it is given as the empty string. -/
def sliceFrom (s : String) (n : Nat) : Option String :=
  if s.utf8ByteSize < n then none else some (s.extract ⟨n⟩ s.endPos)

/-- How a request leaves `AuthMiddleware`: aborted with a JSON error, passed on with
`userId` and `roleId` set, or unwound by a run-time panic (which the `Recovery`
middleware of `gin.Default()`, routes.go line 11, turns into status 500). -/
inductive AuthOutcome where
  | aborted (status : Nat) (error : String)
  | next (userId roleId : Nat)
  | panicked
  deriving DecidableEq, Repr

/-- The handler `AuthMiddleware(roles)` returns (utils/auth.go, lines 58–92), on the
value of the `Authorization` header, the empty string when the header is absent. -/
def AuthMiddleware (jwt : JWT) (now : Nat) (roles : List Nat) (authHeader : String) :
    AuthOutcome :=
  if authHeader = "" then .aborted 401 "Authorization header required"
  else
    match sliceFrom authHeader "Bearer ".utf8ByteSize with
    | none => .panicked
    | some tokenString =>
      match verifyToken jwt now tokenString with
      | .error _ => .aborted 401 "Invalid Token"
      | .ok (userId, roleId) =>
        let authorized := roles.foldl
          (fun authorized role => if role = roleId ∨ role = 0 then true else authorized) false
        if !authorized then .aborted 403 "Access denied: Insufficient permissions"
        else .next userId roleId

/-- The decoded JSON body of a login request; a missing field is the empty string. -/
structure LoginBody where
  Email : String
  Password : String
  deriving DecidableEq, Repr

/-- What the surroundings answer during one `Login` call: whether the lookup of the
user fails, `utils.VerifyPassword` (bcrypt) on the password and the stored hash, the JWT
library, and `time.Now()` in Unix seconds. -/
structure AuthEnv where
  firstErr : Bool
  VerifyPassword : String → String → Bool
  jwt : JWT
  now : Nat

/-- The answer `Login` writes: a JSON error, or status 200 with the token and the id,
name and email of the user. -/
inductive AuthReply where
  | error (status : Nat) (error : String)
  | ok (token : String) (id : Nat) (name email : String)
  deriving DecidableEq, Repr

/-- The key `Login` signs with (auth_handler.go, line 20). -/
def secretKey : String := "secret-key"

/-- `h.DB.Model(models.User{}).Where("email = ?", email).First(&user)` with the error
dropped (auth_handler.go, line 36): the visible row with that email (the column is
unique), the zero value when there is none or the query fails. -/
def firstByEmail (firstErr : Bool) (users : List User) (email : String) : User :=
  if firstErr then zeroUser else (users.find? (fun row => row.Email == email)).getD zeroUser

/-- `AuthHandler.Login` (auth_handler.go, lines 22–65) on the visible rows of the users
table; `reqBody` is `none` when the body does not decode. -/
def Login (users : List User) (env : AuthEnv) (reqBody : Option LoginBody) : AuthReply :=
  match reqBody with
  | none => .error 400 "Bad request, invalid request body"
  | some reqBody =>
    let user := firstByEmail env.firstErr users reqBody.Email
    if user.ID = 0 then .error 401 "Email or password is invalid"
    else if !env.VerifyPassword reqBody.Password user.Password then
      .error 401 "Email or password is invalid"
    else
      match env.jwt.SignedString ⟨user.ID, user.RoleID, env.now + 3600⟩ secretKey with
      | none => .error 500 "An error has occurred while generating auth creds"
      | some tokenString => .ok tokenString user.ID user.Name user.Email

/-! ## sample data -/

/-- Three property types; the third is neither "buy" nor "rent". -/
def sampleTypes : List PropertyType := [⟨1, "buy"⟩, ⟨2, "rent"⟩, ⟨3, "lease"⟩]

/-- A stored property row. -/
def sampleProperty (id owner typeID : Nat) (status : String) : Property :=
  { ID := id, Name := "flat", Description := "two rooms", Status := status, Price := 0,
    Location := "city", OwnerID := owner, ImagePrefix := "", PropertyTypeID := typeID,
    PropertyType := ⟨0, ""⟩, PropertyCategoryID := 1 }

/-- A store with four properties of owner 1 and no transaction yet: property 1 is for
sale, property 2 is already sold, property 3 is for rent, property 4 has type "lease". -/
def sampleDB : DB :=
  { properties :=
      [sampleProperty 1 1 1 "available", sampleProperty 2 1 1 "sold",
       sampleProperty 3 1 2 "available", sampleProperty 4 1 3 "available"]
    propertyTypes := sampleTypes
    transactions := [] }

/-- A database that answers every statement without error and hands out key 7. -/
def noFault : DBEnv :=
  { firstErr := false, createErr := false, updateErr := false, commitErr := false, newID := 7 }

/-- The sample store with a category and two roles. -/
def sampleStore : DB :=
  { sampleDB with
    propertyCategories := [⟨1, "flat"⟩]
    roles := [⟨1, "client"⟩, ⟨3, "admin"⟩] }

/-- A complete creation form with the given images. -/
def sampleForm (images : List FileHeader) : CreateForm :=
  { name := "loft", description := "top floor", location := "city", price := "1200",
    propertyTypeId := "1", propertyCategoryId := "1", images := images }

/-- Surroundings in which nothing fails: every price parses (to the bit pattern of
1200), the sequence hands out key 5, results arrive in the given order. -/
def okCreate (order : List Nat) : CreateEnv :=
  { ParseFloat := fun _ => some 1150681088, typeErr := false, categoryErr := false,
    createErr := false, deleteErr := false, saveErr := false, newID := 5,
    S3Bucket := "bucket", s3 := okS3, order := order, cache := okCache }

/-- A cache with one entry of the property namespace and one foreign entry. -/
def sampleRedis : Redis :=
  ⟨[("properties:all", sampleDB.properties.map (Preload sampleDB)), ("users:all", [])]⟩

/-- A database side on which no statement of an update or a delete fails; a path
parameter that is not a number is rejected. -/
def okModify : ModifyEnv :=
  { firstErr := false, rawWhere := fun _ => none, roleErr := false, updatesErr := false,
    countErr := false, deleteErr := false }

/-- The zero value of `models.Property`. -/
def zeroProperty : Property :=
  { ID := 0, Name := "", Description := "", Status := "", Price := 0, Location := "",
    OwnerID := 0, ImagePrefix := "", PropertyTypeID := 0, PropertyType := ⟨0, ""⟩,
    PropertyCategoryID := 0 }

/-- The cache after a first `GetProperties` without filters on the sample store and an
empty cache: it holds the list of that moment under "properties:all". -/
def filledRedis : Redis :=
  (GetProperties sampleStore ⟨[]⟩ okCache okQuery noFilters).redis

/-- The request `?categoryId=1:typeId:2`: its category is not a number, so the list query
gets no condition from it. -/
def colonFilters : Filters := ⟨"1:typeId:2", "", "", "", ""⟩

/-- The request `?categoryId=1&typeId=2`. -/
def plainFilters : Filters := ⟨"1", "2", "", "", ""⟩

/-- A JWT library reduced to one token: it signs `claims` with `key` as `tokenString`
and nothing else, and parses `tokenString` with `key` before the expiry into the decoded
claims. -/
def singleTokenJWT (claims : LoginClaims) (key tokenString : String) : JWT :=
  { SignedString := fun c k => if c = claims ∧ k = key then some tokenString else none
    Parse := fun t k now =>
      if t = tokenString ∧ k = key ∧ now < claims.exp then
        .ok ⟨true, some claims.decoded⟩
      else .error "token is malformed" }

/-- The users table of the login tests: one user, with id 1 and role 1. -/
def sampleUsers : List User :=
  [⟨1, "Test User", "test@example.com", "$2a$10$abcdefghijklmnopqrstuvwxyz", 1⟩]

/-- Surroundings of a login at time 1000 in which "password123" verifies against every
hash and the library signs the claims of the given user as "header.payload.signature". -/
def sampleAuth (userId roleId : Nat) : AuthEnv :=
  { firstErr := false
    VerifyPassword := fun password _ => password == "password123"
    jwt := singleTokenJWT ⟨userId, roleId, 4600⟩ "secret-key" "header.payload.signature"
    now := 1000 }

/-! ## purchase flow: auxiliary lemmas -/

/-- The new status is never "available". -/
theorem newStatus_ne_available (ty : String) :
    (if ty = "rent" then "rented" else "sold") ≠ "available" := by
  split <;> decide

/-- Every answer other than 201 leaves the committed tables as they were. -/
theorem CreateTransaction_error (db : DB) (env : DBEnv) (c : Context) (s : Nat) (m : String)
    (h : (CreateTransaction db env c).1 = .error s m) : (CreateTransaction db env c).2 = db := by
  unfold CreateTransaction at h ⊢
  unfold Create Update at h ⊢
  repeat' split
  all_goals first | rfl | simp_all

theorem setStatus_ID (id : Nat) (st : String) (r : Property) : (setStatus id st r).ID = r.ID := by
  unfold setStatus; split <;> rfl

theorem setStatus_Status (id : Nat) (st : String) (r : Property) :
    (setStatus id st r).Status = if r.ID = id then st else r.Status := by
  unfold setStatus; split <;> rfl

/-- The shape of a successful call. -/
theorem CreateTransaction_created (db : DB) (env : DBEnv) (c : Context) (msg : String)
    (t : Transaction) (db' : DB) (h : CreateTransaction db env c = (.created msg t, db')) :
    ∃ pid client row, c.PropertyID = some pid ∧ c.userId = some client ∧
      env.firstErr = false ∧
      db.properties.find? (fun p => p.ID == pid) = some row ∧
      row.Status = "available" ∧ row.OwnerID ≠ client ∧
      t = ⟨env.newID, client, row.OwnerID, row.ID, (Preload db row).PropertyType.Name⟩ ∧
      db' = { db with
        transactions := db.transactions ++ [t]
        properties := db.properties.map
          (setStatus t.PropertyID (if t.Type_ = "rent" then "rented" else "sold")) } := by
  obtain ⟨opid, ouid⟩ := c
  cases opid with
  | none => simp [CreateTransaction] at h
  | some pid =>
    cases ouid with
    | none => simp [CreateTransaction] at h
    | some client =>
      cases hf : env.firstErr with
      | true => simp [CreateTransaction, First, hf] at h
      | false =>
        cases hrow : db.properties.find? (fun p => p.ID == pid) with
        | none => simp [CreateTransaction, First, hf, hrow] at h
        | some row =>
          refine ⟨pid, client, row, rfl, rfl, rfl, hrow, ?_⟩
          simp only [CreateTransaction, First, hf, hrow, Create, Update] at h
          by_cases hs : (Preload db row).Status = "available"
          · by_cases ho : (Preload db row).OwnerID = client
            · simp [hs, ho] at h
            · cases hc : env.createErr <;> cases hu : env.updateErr <;>
                cases hk : env.commitErr <;> simp [hs, ho, hc, hu, hk] at h
              obtain ⟨⟨-, ht⟩, hdb⟩ := h
              subst ht hdb
              exact ⟨hs, ho, rfl, rfl⟩
          · simp [hs] at h

/-- A lookup by primary key after the status update sees the same row, with the new
status when the key is the updated one. -/
theorem find_map_setStatus (l : List Property) (id q : Nat) (st : String) :
    (l.map (setStatus id st)).find? (fun p => p.ID == q) =
      (l.find? (fun p => p.ID == q)).map (setStatus id st) := by
  induction l with
  | nil => rfl
  | cons a l ih =>
    simp only [List.map_cons, List.find?_cons, setStatus_ID]
    cases a.ID == q
    · simpa using ih
    · rfl

/-- The status a lookup returns after a successful call. -/
theorem statusOf_created (db : DB) (env : DBEnv) (c : Context) (msg : String)
    (t : Transaction) (db' : DB) (h : CreateTransaction db env c = (.created msg t, db'))
    (q : Nat) :
    statusOf db' q =
      (db.properties.find? (fun p => p.ID == q)).map (fun r =>
        if r.ID = t.PropertyID then (if t.Type_ = "rent" then "rented" else "sold")
        else r.Status) := by
  obtain ⟨pid, client, row, -, -, -, -, -, -, -, hdb⟩ := CreateTransaction_created _ _ _ _ _ _ h
  subst hdb
  simp only [statusOf, find_map_setStatus, Option.map_map]
  congr 1
  funext r
  simp [setStatus_Status]

/-- The number of records per property after a successful call. -/
theorem txCount_created (db : DB) (env : DBEnv) (c : Context) (msg : String)
    (t : Transaction) (db' : DB) (h : CreateTransaction db env c = (.created msg t, db'))
    (q : Nat) :
    txCount db' q = txCount db q + (if t.PropertyID = q then 1 else 0) := by
  obtain ⟨pid, client, row, -, -, -, -, -, -, -, hdb⟩ := CreateTransaction_created _ _ _ _ _ _ h
  subst hdb
  by_cases hq : t.PropertyID = q <;> simp [txCount, List.filter_append, List.filter_cons, hq]

/-- Before a successful call the purchased property is looked up as "available". -/
theorem statusOf_before_created (db : DB) (env : DBEnv) (c : Context) (msg : String)
    (t : Transaction) (db' : DB) (h : CreateTransaction db env c = (.created msg t, db')) :
    c.PropertyID = some t.PropertyID ∧ statusOf db t.PropertyID = some "available" := by
  obtain ⟨pid, client, row, hp, -, -, hrow, hs, -, ht, -⟩ :=
    CreateTransaction_created _ _ _ _ _ _ h
  have hid : row.ID = pid := by simpa using List.find?_some hrow
  subst ht
  simp only
  rw [hid]
  exact ⟨hp, by simp [statusOf, hrow, hs]⟩

/-- The status a lookup returns after a successful call, in terms of the status before. -/
theorem statusOf_created_eq (db : DB) (env : DBEnv) (c : Context) (msg : String)
    (t : Transaction) (db' : DB) (h : CreateTransaction db env c = (.created msg t, db'))
    (q : Nat) :
    statusOf db' q =
      if t.PropertyID = q then some (if t.Type_ = "rent" then "rented" else "sold")
      else statusOf db q := by
  rw [statusOf_created db env c msg t db' h q]
  by_cases hq : t.PropertyID = q
  · have hb := (statusOf_before_created db env c msg t db' h).2
    rw [hq] at hb
    simp only [statusOf] at hb
    cases hfind : db.properties.find? (fun p => p.ID == q) with
    | none => simp [hfind] at hb
    | some r =>
      have hid : r.ID = q := by simpa using List.find?_some hfind
      simp [hq, hid]
  · cases hfind : db.properties.find? (fun p => p.ID == q) with
    | none => simp [statusOf, hfind, hq]
    | some r =>
      have hid : r.ID = q := by simpa using List.find?_some hfind
      have hne : ¬ r.ID = t.PropertyID := by rw [hid]; exact fun e => hq e.symm
      simp [statusOf, hfind, hq, hne]

/-- A request for a property that is not available is answered 400 and changes nothing. -/
theorem CreateTransaction_taken (db : DB) (env : DBEnv) (pid client : Nat)
    (ht : Taken db pid) (hf : env.firstErr = false) :
    CreateTransaction db env ⟨some pid, some client⟩ =
      (.error 400 "Property is not available", db) := by
  obtain ⟨s, hs, hne⟩ := ht
  simp only [statusOf] at hs
  cases hfind : db.properties.find? (fun p => p.ID == pid) with
  | none => simp [hfind] at hs
  | some row =>
    simp only [hfind, Option.map_some', Option.some.injEq] at hs
    have : (Preload db row).Status ≠ "available" := by
      show row.Status ≠ "available"
      rw [hs]; exact hne
    simp [CreateTransaction, First, hf, hfind, this]

/-- No call makes a taken property available again. -/
theorem Taken_step (db : DB) (env : DBEnv) (c : Context) (pid : Nat) (ht : Taken db pid) :
    Taken (CreateTransaction db env c).2 pid := by
  cases hr : CreateTransaction db env c with
  | mk r db' =>
    cases r with
    | error s m =>
      have := CreateTransaction_error db env c s m (by rw [hr])
      rw [hr] at this
      simp only at this ⊢
      rw [this]; exact ht
    | created msg t =>
      obtain ⟨s, hs, hne⟩ := ht
      simp only
      unfold Taken
      rw [statusOf_created_eq db env c msg t db' hr pid]
      by_cases hq : t.PropertyID = pid
      · exact ⟨_, by simp [hq], newStatus_ne_available t.Type_⟩
      · exact ⟨s, by simp [hq, hs], hne⟩

theorem Taken_runCalls (calls : List Call) (db : DB) (pid : Nat) (ht : Taken db pid) :
    Taken (runCalls db calls) pid := by
  induction calls generalizing db with
  | nil => exact ht
  | cons call calls ih => exact ih _ (Taken_step db call.env call.c pid ht)

theorem OneSale_step (db : DB) (env : DBEnv) (c : Context) (hi : OneSale db) :
    OneSale (CreateTransaction db env c).2 := by
  cases hr : CreateTransaction db env c with
  | mk r db' =>
    cases r with
    | error s m =>
      have := CreateTransaction_error db env c s m (by rw [hr])
      rw [hr] at this
      simp only at this ⊢
      rw [this]; exact hi
    | created msg t =>
      intro q
      simp only
      rw [txCount_created db env c msg t db' hr q]
      by_cases hq : t.PropertyID = q
      · right
        have hb := (statusOf_before_created db env c msg t db' hr).2
        rw [hq] at hb
        have h0 : txCount db q = 0 := by
          rcases hi q with h0 | ⟨-, s, hs, hne⟩
          · exact h0
          · rw [hb] at hs
            exact absurd (Option.some.inj hs).symm hne
        refine ⟨by simp [h0, hq], ?_⟩
        unfold Taken
        rw [statusOf_created_eq db env c msg t db' hr q]
        exact ⟨_, by simp [hq], newStatus_ne_available t.Type_⟩
      · rcases hi q with h0 | ⟨h1, ht⟩
        · left; simp [h0, hq]
        · right
          refine ⟨by simp [h1, hq], ?_⟩
          have := Taken_step db env c q ht
          rw [hr] at this
          exact this

theorem OneSale_runCalls (calls : List Call) (db : DB) (hi : OneSale db) :
    OneSale (runCalls db calls) := by
  induction calls generalizing db with
  | nil => exact hi
  | cons call calls ih => exact ih _ (OneSale_step db call.env call.c hi)

/-! ## purchase flow: the claims -/

/-- C1 (no orphan transaction). For every store, every answer of the database (an error of
the lookup, of the insert, of the status update or of the commit included) and every
request, the call adds a transaction record for a property exactly when it changes the
status that property is looked up with. -/
theorem no_orphan_transaction (db : DB) (env : DBEnv) (c : Context) (pid : Nat) :
    txCount db pid < txCount (CreateTransaction db env c).2 pid ↔
      statusOf (CreateTransaction db env c).2 pid ≠ statusOf db pid := by
  cases hr : CreateTransaction db env c with
  | mk r db' =>
    cases r with
    | error s m =>
      have := CreateTransaction_error db env c s m (by rw [hr])
      rw [hr] at this
      simp only at this ⊢
      rw [this]; simp
    | created msg t =>
      simp only
      rw [txCount_created db env c msg t db' hr pid,
        statusOf_created_eq db env c msg t db' hr pid]
      by_cases hq : t.PropertyID = pid
      · have hb := (statusOf_before_created db env c msg t db' hr).2
        rw [hq] at hb
        have hne := newStatus_ne_available t.Type_
        simp [hq, hb, hne]
      · simp [hq]

/-- C2. A request for a property whose status is not "available" never changes the store
(no transaction record, same status), whatever the database answers, and when the lookup
succeeds it is answered 400 "Property is not available". -/
theorem not_available_rejected (db : DB) (env : DBEnv) (pid client : Nat) (row : Property)
    (hrow : db.properties.find? (fun p => p.ID == pid) = some row)
    (hs : row.Status ≠ "available") :
    (CreateTransaction db env ⟨some pid, some client⟩).2 = db ∧
      (env.firstErr = false →
        (CreateTransaction db env ⟨some pid, some client⟩).1 =
          .error 400 "Property is not available") := by
  have ht : Taken db pid := ⟨row.Status, by simp [statusOf, hrow], hs⟩
  constructor
  · cases hf : env.firstErr with
    | false => rw [CreateTransaction_taken db env pid client ht hf]
    | true => simp [CreateTransaction, First, hf]
  · intro hf
    rw [CreateTransaction_taken db env pid client ht hf]

/-- C2 on the sample store: property 2 is sold, client 5 asks for it. -/
theorem not_available_rejected_witness :
    sampleDB.properties.find? (fun p => p.ID == 2) = some (sampleProperty 2 1 1 "sold") ∧
      (sampleProperty 2 1 1 "sold").Status ≠ "available" ∧
      (CreateTransaction sampleDB noFault ⟨some 2, some 5⟩).2 = sampleDB ∧
      (CreateTransaction sampleDB noFault ⟨some 2, some 5⟩).1 =
        .error 400 "Property is not available" :=
  ⟨by decide, by decide,
    (not_available_rejected sampleDB noFault 2 5 (sampleProperty 2 1 1 "sold") (by decide)
      (by decide)).1,
    (not_available_rejected sampleDB noFault 2 5 (sampleProperty 2 1 1 "sold") (by decide)
      (by decide)).2 rfl⟩

/-- C3 (sequential exclusivity). Once a call on property `pid` has succeeded, then after
any further sequence of purchase calls a call on `pid` by any client changes nothing and,
when its lookup succeeds, is answered 400 "Property is not available"; and in every state
reached by purchase calls from a store without transaction records, every property has
at most one transaction record. -/
theorem sequential_exclusivity (db : DB) (env : DBEnv) (pid client : Nat) (msg : String)
    (t : Transaction) (db1 : DB)
    (h : CreateTransaction db env ⟨some pid, some client⟩ = (.created msg t, db1))
    (calls : List Call) (env' : DBEnv) (client' : Nat)
    (db0 : DB) (h0 : db0.transactions = []) (calls0 : List Call) (q : Nat) :
    ((CreateTransaction (runCalls db1 calls) env' ⟨some pid, some client'⟩).2 =
        runCalls db1 calls ∧
      (env'.firstErr = false →
        (CreateTransaction (runCalls db1 calls) env' ⟨some pid, some client'⟩).1 =
          .error 400 "Property is not available")) ∧
      txCount (runCalls db0 calls0) q ≤ 1 := by
  constructor
  · have hp := (statusOf_before_created db env _ msg t db1 h).1
    simp only [Option.some.injEq] at hp
    have ht1 : Taken db1 pid := by
      unfold Taken
      rw [statusOf_created_eq db env _ msg t db1 h pid]
      exact ⟨_, by simp [hp], newStatus_ne_available t.Type_⟩
    have ht : Taken (runCalls db1 calls) pid := Taken_runCalls calls db1 pid ht1
    constructor
    · cases hf : env'.firstErr with
      | false => rw [CreateTransaction_taken _ env' pid client' ht hf]
      | true => simp [CreateTransaction, First, hf]
    · intro hf
      rw [CreateTransaction_taken _ env' pid client' ht hf]
  · have hi : OneSale db0 := fun q => Or.inl (by simp [txCount, h0])
    rcases OneSale_runCalls calls0 db0 hi q with h | ⟨h, -⟩ <;> omega

/-- C3 on the sample store: client 2 buys property 1, rents property 3, then client 3
asks for property 1. -/
theorem sequential_exclusivity_witness :
    CreateTransaction sampleDB noFault ⟨some 1, some 2⟩ =
        (.created "Property sold successfully" ⟨7, 2, 1, 1, "buy"⟩,
          (CreateTransaction sampleDB noFault ⟨some 1, some 2⟩).2) ∧
      sampleDB.transactions = [] ∧
      ((CreateTransaction
            (runCalls (CreateTransaction sampleDB noFault ⟨some 1, some 2⟩).2
              [⟨noFault, ⟨some 3, some 2⟩⟩])
            noFault ⟨some 1, some 3⟩).2 =
          runCalls (CreateTransaction sampleDB noFault ⟨some 1, some 2⟩).2
            [⟨noFault, ⟨some 3, some 2⟩⟩] ∧
        (noFault.firstErr = false →
          (CreateTransaction
              (runCalls (CreateTransaction sampleDB noFault ⟨some 1, some 2⟩).2
                [⟨noFault, ⟨some 3, some 2⟩⟩])
              noFault ⟨some 1, some 3⟩).1 =
            .error 400 "Property is not available")) ∧
      txCount
        (runCalls sampleDB [⟨noFault, ⟨some 1, some 2⟩⟩, ⟨noFault, ⟨some 1, some 3⟩⟩]) 1
        ≤ 1 :=
  ⟨by decide, rfl,
    sequential_exclusivity sampleDB noFault 1 2 "Property sold successfully"
      ⟨7, 2, 1, 1, "buy"⟩
      (CreateTransaction sampleDB noFault ⟨some 1, some 2⟩).2 (by decide)
      [⟨noFault, ⟨some 3, some 2⟩⟩] noFault 3 sampleDB rfl
      [⟨noFault, ⟨some 1, some 2⟩⟩, ⟨noFault, ⟨some 1, some 3⟩⟩] 1⟩

/-- C5. A request by the owner for their own available property never changes the store,
whatever the database answers, and when the lookup succeeds it is answered 400
"Cannot buy/rent your own property". -/
theorem self_transaction_rejected (db : DB) (env : DBEnv) (pid client : Nat) (row : Property)
    (hrow : db.properties.find? (fun p => p.ID == pid) = some row)
    (hs : row.Status = "available") (ho : row.OwnerID = client) :
    (CreateTransaction db env ⟨some pid, some client⟩).2 = db ∧
      statusOf (CreateTransaction db env ⟨some pid, some client⟩).2 pid = some "available" ∧
      (env.firstErr = false →
        (CreateTransaction db env ⟨some pid, some client⟩).1 =
          .error 400 "Cannot buy/rent your own property") := by
  have hs' : (Preload db row).Status = "available" := hs
  have ho' : (Preload db row).OwnerID = client := ho
  have key : (CreateTransaction db env ⟨some pid, some client⟩).2 = db := by
    cases hf : env.firstErr <;> simp [CreateTransaction, First, hf, hrow, hs', ho']
  refine ⟨key, ?_, ?_⟩
  · rw [key]; simp [statusOf, hrow, hs]
  · intro hf
    simp [CreateTransaction, First, hf, hrow, hs', ho']

/-- C5 on the sample store: owner 1 asks for their own property 1. -/
theorem self_transaction_rejected_witness :
    sampleDB.properties.find? (fun p => p.ID == 1) = some (sampleProperty 1 1 1 "available") ∧
      (CreateTransaction sampleDB noFault ⟨some 1, some 1⟩).2 = sampleDB ∧
      statusOf (CreateTransaction sampleDB noFault ⟨some 1, some 1⟩).2 1 = some "available" ∧
      (CreateTransaction sampleDB noFault ⟨some 1, some 1⟩).1 =
        .error 400 "Cannot buy/rent your own property" :=
  ⟨by decide,
    (self_transaction_rejected sampleDB noFault 1 1 (sampleProperty 1 1 1 "available")
      (by decide) rfl rfl).1,
    (self_transaction_rejected sampleDB noFault 1 1 (sampleProperty 1 1 1 "available")
      (by decide) rfl rfl).2.1,
    (self_transaction_rejected sampleDB noFault 1 1 (sampleProperty 1 1 1 "available")
      (by decide) rfl rfl).2.2 rfl⟩

/-- C6. After a successful call the purchased property is looked up with status "rented"
exactly when the name of its property type is "rent", with status "sold" for every other
type name, and never with status "available". -/
theorem new_status_by_type (db : DB) (env : DBEnv) (pid client : Nat) (msg : String)
    (t : Transaction) (db' : DB)
    (h : CreateTransaction db env ⟨some pid, some client⟩ = (.created msg t, db')) :
    ∃ ty, typeNameOf db pid = some ty ∧
      (statusOf db' pid = some "rented" ↔ ty = "rent") ∧
      (ty ≠ "rent" → statusOf db' pid = some "sold") ∧
      statusOf db' pid ≠ some "available" := by
  obtain ⟨pid', client', row, hp, -, -, hrow, -, -, ht, -⟩ :=
    CreateTransaction_created _ _ _ _ _ _ h
  simp only [Option.some.injEq] at hp
  subst hp
  have hid : row.ID = pid := by simpa using List.find?_some hrow
  have hst := statusOf_created_eq db env _ msg t db' h pid
  have htp : t.PropertyID = pid := by rw [ht]; exact hid
  have hty : t.Type_ = (Preload db row).PropertyType.Name := by rw [ht]
  rw [if_pos htp, hty] at hst
  refine ⟨(Preload db row).PropertyType.Name, by simp [typeNameOf, hrow], ?_, ?_, ?_⟩
  · rw [hst]
    by_cases hr : (Preload db row).PropertyType.Name = "rent"
    · simp [hr]
    · simp [hr]
  · intro hr
    rw [hst, if_neg hr]
  · rw [hst]
    intro e
    exact newStatus_ne_available _ (Option.some.inj e)

/-- C6 on the sample store: client 2 rents property 3, whose type is "rent". -/
theorem new_status_by_type_witness :
    CreateTransaction sampleDB noFault ⟨some 3, some 2⟩ =
        (.created "Property rented successfully" ⟨7, 2, 1, 3, "rent"⟩,
          (CreateTransaction sampleDB noFault ⟨some 3, some 2⟩).2) ∧
      ∃ ty, typeNameOf sampleDB 3 = some ty ∧
        (statusOf (CreateTransaction sampleDB noFault ⟨some 3, some 2⟩).2 3 = some "rented" ↔
          ty = "rent") ∧
        (ty ≠ "rent" →
          statusOf (CreateTransaction sampleDB noFault ⟨some 3, some 2⟩).2 3 = some "sold") ∧
        statusOf (CreateTransaction sampleDB noFault ⟨some 3, some 2⟩).2 3 ≠
          some "available" :=
  ⟨by decide,
    new_status_by_type sampleDB noFault 3 2 "Property rented successfully" ⟨7, 2, 1, 3, "rent"⟩
      (CreateTransaction sampleDB noFault ⟨some 3, some 2⟩).2 (by decide)⟩

/-- C7 (evaluation at the failing input). Client 2 buys property 4, whose property type
is named "lease": the call succeeds, the record carries the client, the owner and the
property, the status becomes "sold", but the record's type is "lease", neither "buy"
nor "rent". -/
theorem transaction_type_is_type_name :
    ∃ t db', CreateTransaction sampleDB noFault ⟨some 4, some 2⟩ =
        (.created "Property sold successfully" t, db') ∧
      t.ClientID = 2 ∧ t.OwnerID = 1 ∧ t.PropertyID = 4 ∧
      statusOf db' 4 = some "sold" ∧
      t.Type_ = "lease" ∧ t.Type_ ≠ "buy" ∧ t.Type_ ≠ "rent" :=
  ⟨⟨7, 2, 1, 4, "lease"⟩, (CreateTransaction sampleDB noFault ⟨some 4, some 2⟩).2,
    by decide, rfl, rfl, rfl, by decide, rfl, by decide, by decide⟩

/-- A call that runs its four statements with no other statement in between does what
`CreateTransaction` does. -/
theorem runSchedule_alone (db : DB) (env : DBEnv) (pid client : Nat) (b : Session)
    (hb : b.stage = .begun) :
    runSchedule db (Session.start env pid client) b [false, false, false, false] =
      ((CreateTransaction db env ⟨some pid, some client⟩).2,
        ⟨env, pid, client, .done (CreateTransaction db env ⟨some pid, some client⟩).1⟩,
        b) := by
  have hlock : ∀ id, holdsRowLock b id = false := by
    intro id; simp [holdsRowLock, hb]
  simp only [runSchedule, Session.start, CreateTransaction, Create, Update]
  cases hfirst : First env db pid with
  | error e =>
    cases e <;> simp [Session.step, hfirst]
  | ok property =>
    by_cases hs : property.Status = "available"
    · by_cases ho : property.OwnerID = client
      · simp [Session.step, hfirst, hs, ho]
      · cases hc : env.createErr <;> cases hu : env.updateErr <;> cases hk : env.commitErr <;>
          simp [Session.step, hfirst, hs, ho, hc, hu, hk, hlock]
    · simp [Session.step, hfirst, hs]

/-- C4 (evaluation at the failing input). Clients 2 and 3 both ask for property 1 of
owner 1, which is available. When both lookups run before either commit, both calls are
answered 201 and the store holds two transaction records for property 1; when the second
call starts after the first has committed, it is answered 400 "Property is not
available". -/
theorem concurrent_purchases_both_succeed :
    runSchedule sampleDB (Session.start noFault 1 2)
        (Session.start { noFault with newID := 8 } 1 3)
        [false, true, false, false, false, true, true, true] =
      ({ sampleDB with
          properties :=
            [sampleProperty 1 1 1 "sold", sampleProperty 2 1 1 "sold",
             sampleProperty 3 1 2 "available", sampleProperty 4 1 3 "available"]
          transactions := [⟨7, 2, 1, 1, "buy"⟩, ⟨8, 3, 1, 1, "buy"⟩] },
        ⟨noFault, 1, 2, .done (.created "Property sold successfully" ⟨7, 2, 1, 1, "buy"⟩)⟩,
        ⟨{ noFault with newID := 8 }, 1, 3,
          .done (.created "Property sold successfully" ⟨8, 3, 1, 1, "buy"⟩)⟩) ∧
    txCount
      (runSchedule sampleDB (Session.start noFault 1 2)
        (Session.start { noFault with newID := 8 } 1 3)
        [false, true, false, false, false, true, true, true]).1 1 = 2 ∧
    (runSchedule sampleDB (Session.start noFault 1 2)
        (Session.start { noFault with newID := 8 } 1 3)
        [false, false, false, false, true, true, true, true]).2.2.stage =
      .done (.error 400 "Property is not available") := by
  decide

/-! ## upload: auxiliary lemmas -/

theorem failed_eq_false_iff (r : FileUploadResult) :
    r.failed = false ↔ r.Error = none ∧ r.Success = true := by
  cases hE : r.Error <;> cases hS : r.Success <;> simp [FileUploadResult.failed, hE, hS]

theorem failed_eq_true_iff (r : FileUploadResult) :
    r.failed = true ↔ (r.Error ≠ none ∨ r.Success = false) := by
  cases hE : r.Error <;> cases hS : r.Success <;> simp [FileUploadResult.failed, hE, hS]

/-- When no delete ends the process, the clean-up loop deletes every entry, in order. -/
theorem cleanupUploaded_returned (s3 : S3Env) (bucketName : String) (m : List (Nat × String))
    (h : (cleanupUploaded s3 bucketName m).2 = false) :
    (cleanupUploaded s3 bucketName m).1 = m.map (fun e => S3Call.delete bucketName e.2) := by
  induction m with
  | nil => rfl
  | cons e m ih =>
    obtain ⟨idx, key⟩ := e
    unfold cleanupUploaded at h ⊢
    cases hd : DeleteFileFromS3 s3 bucketName key with
    | exited => simp [hd] at h
    | returned a =>
      simp only [hd] at h ⊢
      simp [ih h]

/-- With a blob store whose deletes do not fail, the clean-up loop never ends the
process. -/
theorem cleanupUploaded_no_exit (s3 : S3Env) (bucketName : String) (m : List (Nat × String))
    (hdel : ∀ key, s3.deleteErr bucketName key = false) :
    (cleanupUploaded s3 bucketName m).2 = false := by
  induction m with
  | nil => rfl
  | cons e m ih =>
    obtain ⟨idx, key⟩ := e
    unfold cleanupUploaded
    simp [DeleteFileFromS3, hdel key, ih]

/-- The loop reports success exactly when no received result is a failure, and then it
has written no answer and made no call. -/
theorem processResults_true_iff (s3 : S3Env) (bucketName : String) (m : List (Nat × String))
    (l : List FileUploadResult) :
    (processResults s3 bucketName m l).ret = .returned true ↔ ∀ r ∈ l, r.failed = false := by
  induction l generalizing m with
  | nil => simp [processResults]
  | cons r l ih =>
    unfold processResults
    cases hr : r.failed with
    | true =>
      simp only [if_true, List.mem_cons, forall_eq_or_imp, hr]
      constructor
      · intro h
        split at h <;> simp at h
      · intro h
        simp at h
    | false =>
      simp only [Bool.false_eq_true, if_false, List.mem_cons, forall_eq_or_imp, hr, true_and]
      exact ih _

theorem processResults_all_ok (s3 : S3Env) (bucketName : String) (m : List (Nat × String))
    (l : List FileUploadResult) (h : ∀ r ∈ l, r.failed = false) :
    processResults s3 bucketName m l = ⟨.returned true, none, []⟩ := by
  induction l generalizing m with
  | nil => rfl
  | cons r l ih =>
    unfold processResults
    have hr : r.failed = false := h r (List.mem_cons_self _ _)
    simp only [hr, Bool.false_eq_true, if_false]
    exact ih _ (fun x hx => h x (List.mem_cons_of_mem _ hx))

/-- The entries of `uploadedFiles` after the results in `l` have been recorded. -/
theorem processResults_first_failure (s3 : S3Env) (bucketName : String)
    (m : List (Nat × String)) (pre : List FileUploadResult) (f : FileUploadResult)
    (rest : List FileUploadResult) (hpre : ∀ r ∈ pre, r.failed = false)
    (hf : f.failed = true) :
    processResults s3 bucketName m (pre ++ f :: rest) =
      { ret :=
          if (cleanupUploaded s3 bucketName
              (pre.foldl (fun m r => mapSet m r.Index r.FileKey) m)).2
          then .exited else .returned false
        response := some (.error 500
          ("Failed to upload file " ++ toString f.Index ++ ": " ++ errorText f.Error))
        calls := (cleanupUploaded s3 bucketName
              (pre.foldl (fun m r => mapSet m r.Index r.FileKey) m)).1 } := by
  induction pre generalizing m with
  | nil =>
    simp only [List.nil_append, List.foldl_nil]
    rw [processResults]
    simp [hf]
  | cons r pre ih =>
    have hr : r.failed = false := hpre r (List.mem_cons_self _ _)
    simp only [List.cons_append, List.foldl_cons]
    rw [processResults]
    simp only [hr, Bool.false_eq_true, if_false]
    exact ih _ (fun x hx => hpre x (List.mem_cons_of_mem _ hx))

/-- Every list of results is its longest failure-free prefix followed by the rest, which
is empty or starts with a failure. -/
theorem split_at_first_failure (l : List FileUploadResult) :
    (∀ r ∈ l.takeWhile (fun r => !r.failed), r.failed = false) ∧
      (l.dropWhile (fun r => !r.failed) = [] ∨
        ∃ f rest, l.dropWhile (fun r => !r.failed) = f :: rest ∧ f.failed = true) := by
  constructor
  · intro r hr
    have := List.mem_takeWhile_imp hr
    simpa using this
  · cases hd : l.dropWhile (fun r => !r.failed) with
    | nil => exact Or.inl rfl
    | cons f rest =>
      right
      refine ⟨f, rest, rfl, ?_⟩
      have := List.head_dropWhile_not (fun r : FileUploadResult => !r.failed) l
      simp [hd] at this
      exact this

theorem mapSet_fresh (m : List (Nat × String)) (idx : Nat) (key : String)
    (h : idx ∉ m.map Prod.fst) : mapSet m idx key = m ++ [(idx, key)] := by
  unfold mapSet
  have : m.any (fun e => e.1 == idx) = false := by
    rw [List.any_eq_false]
    intro e he hidx
    apply h
    have : e.1 = idx := by simpa using hidx
    rw [← this]
    exact List.mem_map_of_mem _ he
  simp [this]

/-- Recording results with distinct indices appends one entry per result. -/
theorem foldl_mapSet (pre : List FileUploadResult) (m : List (Nat × String))
    (h : (m.map Prod.fst ++ pre.map (fun r => r.Index)).Nodup) :
    pre.foldl (fun m r => mapSet m r.Index r.FileKey) m =
      m ++ pre.map (fun r => (r.Index, r.FileKey)) := by
  induction pre generalizing m with
  | nil => simp
  | cons r pre ih =>
    simp only [List.foldl_cons, List.map_cons]
    have hfresh : r.Index ∉ m.map Prod.fst := by
      intro hmem
      rw [List.nodup_append] at h
      exact h.2.2 hmem (by simp)
    rw [mapSet_fresh m r.Index r.FileKey hfresh]
    rw [ih]
    · simp
    · simp only [List.map_append, List.map_cons, List.map_nil, List.append_assoc,
        List.singleton_append]
      simpa using h

theorem deletedKeys_append (a b : List S3Call) :
    deletedKeys (a ++ b) = deletedKeys a ++ deletedKeys b := by
  simp [deletedKeys, List.filterMap_append]

theorem deletedKeys_uploadFileToS3 (s3 : S3Env) (task : FileUploadTask) :
    deletedKeys (uploadFileToS3 s3 task).2 = [] := by
  unfold uploadFileToS3
  cases task.File.openErr with
  | some e => rfl
  | none =>
    cases task.File.readErr with
    | some e => rfl
    | none =>
      simp only
      split <;> rfl

/-- A worker never deletes. -/
theorem deletedKeys_fileUploadWorker (s3 : S3Env) (tasks : List FileUploadTask) :
    deletedKeys (fileUploadWorker s3 tasks).calls = [] := by
  induction tasks with
  | nil => rfl
  | cons task rest ih =>
    unfold fileUploadWorker
    have h := deletedKeys_uploadFileToS3 s3 task
    split
    · next calls heq => rw [heq] at h; exact h
    · next fileKey err calls heq =>
      rw [heq] at h
      simp only [deletedKeys_append]
      rw [ih]
      simpa using h

/-- The i-th result a worker sends carries the index of the i-th task it took. -/
theorem fileUploadWorker_index (s3 : S3Env) (tasks : List FileUploadTask) (i : Nat)
    (r : FileUploadResult) (h : (fileUploadWorker s3 tasks).results[i]? = some r) :
    ∃ task, tasks[i]? = some task ∧ r.Index = task.Index := by
  induction tasks generalizing i with
  | nil => simp [fileUploadWorker] at h
  | cons task rest ih =>
    unfold fileUploadWorker at h
    split at h
    · simp at h
    · cases i with
      | zero =>
        simp at h
        exact ⟨task, by simp, by rw [← h]⟩
      | succ i =>
        simp only [List.getElem?_cons_succ] at h ⊢
        exact ih i h

theorem queueTasks_index (bucketName imagePrefix : String) (files : List FileHeader) (i : Nat)
    (task : FileUploadTask) (h : (queueTasks bucketName imagePrefix files)[i]? = some task) :
    task.Index = i := by
  unfold queueTasks at h
  rw [List.getElem?_map] at h
  cases he : files.enum[i]? with
  | none => simp [he] at h
  | some e =>
    simp only [he, Option.map_some', Option.some.injEq] at h
    rw [List.enum_eq_zip_range, List.getElem?_zip_eq_some] at he
    have h1 := he.1
    rw [List.getElem?_range] at h1
    · rw [← h]
      simp only
      exact (Option.some.inj h1).symm
    · by_contra hlt
      rw [List.getElem?_eq_none (by simpa using hlt)] at h1
      simp at h1

/-- The result received from task `i` carries index `i`. -/
theorem received_index (s3 : S3Env) (numWorkers : Nat) (bucketName imagePrefix : String)
    (files : List FileHeader) (i : Nat) (r : FileUploadResult)
    (h : (poolRun s3 numWorkers (queueTasks bucketName imagePrefix files)).results[i]? = some r) :
    r.Index = i := by
  unfold poolRun at h
  split at h
  · simp at h
  · obtain ⟨task, htask, hidx⟩ := fileUploadWorker_index s3 _ i r h
    rw [hidx]
    exact queueTasks_index bucketName imagePrefix files i task htask

theorem arrival_nil (order : List Nat) : arrival [] order = [] := by
  induction order with
  | nil => rfl
  | cons i order ih =>
    unfold arrival at ih ⊢
    rw [List.filterMap_cons]
    simp [ih]

/-- The indices of the received results, in order, are the entries of `order` that name a
sent result. -/
theorem arrival_indices (sent : List FileUploadResult)
    (hsent : ∀ (i : Nat) (r : FileUploadResult), sent[i]? = some r → r.Index = i)
    (order : List Nat) :
    (arrival sent order).map (fun r => r.Index) =
      order.filter (fun i => decide (i < sent.length)) := by
  induction order with
  | nil => rfl
  | cons i order ih =>
    unfold arrival at ih ⊢
    rw [List.filterMap_cons, List.filter_cons]
    cases hi : sent[i]? with
    | none =>
      have : ¬ i < sent.length := by
        intro hlt
        rw [List.getElem?_eq_getElem hlt] at hi
        exact Option.noConfusion hi
      simp only [this, decide_False, Bool.false_eq_true, if_false]
      exact ih
    | some r =>
      have hlt : i < sent.length := by
        by_contra hge
        rw [List.getElem?_eq_none (by omega)] at hi
        exact Option.noConfusion hi
      simp only [hlt, decide_True, if_true, List.map_cons, hsent i r hi]
      rw [ih]

/-- The delete calls of a run that returned `false`: one per result received before the
first failure, provided these results have distinct indices. -/
theorem processResults_deleted (s3 : S3Env) (bucketName : String) (l : List FileUploadResult)
    (hnd : (l.map (fun r => r.Index)).Nodup)
    (hret : (processResults s3 bucketName [] l).ret = .returned false) :
    deletedKeys (processResults s3 bucketName [] l).calls =
      (l.takeWhile (fun r => !r.failed)).map (fun r => r.FileKey) := by
  obtain ⟨hpre, hrest⟩ := split_at_first_failure l
  have hsplit := List.takeWhile_append_dropWhile (fun r : FileUploadResult => !r.failed) l
  rcases hrest with hnil | ⟨f, rest, hcons, hf⟩
  · rw [hnil, List.append_nil] at hsplit
    rw [hsplit] at hpre
    have := processResults_all_ok s3 bucketName [] l hpre
    rw [this] at hret
    simp at hret
  · rw [hcons] at hsplit
    have hrun := processResults_first_failure s3 bucketName []
      (l.takeWhile (fun r => !r.failed)) f rest hpre hf
    rw [hsplit] at hrun
    rw [hrun] at hret ⊢
    simp only at hret ⊢
    have hnoexit : (cleanupUploaded s3 bucketName
        ((l.takeWhile (fun r => !r.failed)).foldl
          (fun m r => mapSet m r.Index r.FileKey) [])).2 = false := by
      cases hc : (cleanupUploaded s3 bucketName
        ((l.takeWhile (fun r => !r.failed)).foldl
          (fun m r => mapSet m r.Index r.FileKey) [])).2 with
      | false => rfl
      | true => simp [hc] at hret
    rw [cleanupUploaded_returned s3 bucketName _ hnoexit]
    have hnd' : ((l.takeWhile (fun r => !r.failed)).map (fun r => r.Index)).Nodup := by
      have hsub : ((l.takeWhile (fun r => !r.failed)).map (fun r => r.Index)).Sublist
          (l.map (fun r => r.Index)) :=
        (List.takeWhile_sublist _).map _
      exact hnd.sublist hsub
    rw [foldl_mapSet _ [] (by simpa using hnd')]
    simp only [deletedKeys, List.nil_append, List.filterMap_map, Function.comp_def]
    generalize l.takeWhile (fun r => !r.failed) = pre
    induction pre with
    | nil => rfl
    | cons r pre ih => simp [List.filterMap_cons, ih]

/-! ## upload: the claims -/

/-- With a blob store whose puts do not fail a worker is not stopped, sends one result
per task, and some result is a failure exactly when some task has a file that cannot be
opened or read. -/
theorem fileUploadWorker_no_put_error (s3 : S3Env) (tasks : List FileUploadTask)
    (hput : ∀ t ∈ tasks, ∀ key, s3.putErr t.BucketName key = false) :
    (fileUploadWorker s3 tasks).exited = false ∧
      (fileUploadWorker s3 tasks).results.length = tasks.length ∧
      ((∃ r ∈ (fileUploadWorker s3 tasks).results, r.failed = true) ↔
        ∃ t ∈ tasks, t.File.openErr ≠ none ∨ t.File.readErr ≠ none) := by
  induction tasks with
  | nil => simp [fileUploadWorker]
  | cons task rest ih =>
    obtain ⟨ih1, ih2, ih3⟩ := ih (fun t ht => hput t (List.mem_cons_of_mem _ ht))
    have hp := hput task (List.mem_cons_self _ _)
    unfold fileUploadWorker
    cases ho : task.File.openErr with
    | some e =>
      simp [uploadFileToS3, ho, ih1, ih2, FileUploadResult.failed]
    | none =>
      cases hr : task.File.readErr with
      | some e =>
        simp [uploadFileToS3, ho, hr, ih1, ih2, FileUploadResult.failed]
      | none =>
        simp [uploadFileToS3, ho, hr, UploadFileToS3, hp, ih1, ih2, FileUploadResult.failed]
        simpa [FileUploadResult.failed] using ih3

theorem filterMap_getElem?_range' (pre l : List FileUploadResult) :
    (List.range' pre.length l.length).filterMap (fun i => (pre ++ l)[i]?) = l := by
  induction l generalizing pre with
  | nil => simp
  | cons a l ih =>
    rw [List.length_cons, List.range'_succ, List.filterMap_cons]
    have h0 : (pre ++ a :: l)[pre.length]? = some a := by
      rw [List.getElem?_append_right (Nat.le_refl _)]
      simp
    rw [h0]
    have := ih (pre ++ [a])
    simp only [List.length_append, List.length_singleton, List.append_assoc,
      List.singleton_append] at this
    simp [this]

/-- When every result arrives once the received results are the sent ones, reordered. -/
theorem arrival_perm (sent : List FileUploadResult) (order : List Nat)
    (h : order.Perm (List.range sent.length)) : (arrival sent order).Perm sent := by
  unfold arrival
  have h1 := List.Perm.filterMap (fun i => sent[i]?) h
  have h2 := filterMap_getElem?_range' [] sent
  simp only [List.length_nil, List.nil_append] at h2
  rw [List.range_eq_range', h2] at h1
  exact h1

theorem poolRun_eq (s3 : S3Env) (bucketName imagePrefix : String) (files : List FileHeader) :
    poolRun s3 (if files.length < 3 then files.length else 3)
        (queueTasks bucketName imagePrefix files) =
      fileUploadWorker s3 (queueTasks bucketName imagePrefix files) := by
  unfold poolRun
  cases files with
  | nil => simp [queueTasks, fileUploadWorker]
  | cons f files =>
    have : (if (f :: files).length < 3 then (f :: files).length else 3) ≠ 0 := by
      split <;> simp
    rw [if_neg this]

theorem queueTasks_files (bucketName imagePrefix : String) (files : List FileHeader) :
    (queueTasks bucketName imagePrefix files).map (fun t => t.File) = files ∧
      ∀ t ∈ queueTasks bucketName imagePrefix files, t.BucketName = bucketName := by
  unfold queueTasks
  constructor
  · rw [List.map_map]
    have : ((fun t : FileUploadTask => t.File) ∘
        fun e : Nat × FileHeader => (⟨e.1, e.2, bucketName, imagePrefix⟩ : FileUploadTask)) =
        Prod.snd := by
      funext e; rfl
    rw [this, List.enum_map_snd]
  · intro t ht
    simp only [List.mem_map] at ht
    obtain ⟨e, -, rfl⟩ := ht
    rfl


/-- In a run in which no delete ends the process the loop returns `false` exactly when
some result is a failure. -/
theorem processResults_false_iff (s3 : S3Env) (bucketName : String)
    (results : List FileUploadResult) (hdel : ∀ key, s3.deleteErr bucketName key = false) :
    (processResults s3 bucketName [] results).ret = .returned false ↔
      ∃ r ∈ results, r.Error ≠ none ∨ r.Success = false := by
  obtain ⟨hpre, hrest⟩ := split_at_first_failure results
  have hsplit :=
    List.takeWhile_append_dropWhile (fun r : FileUploadResult => !r.failed) results
  rcases hrest with hnil | ⟨f, rest, hcons, hf⟩
  · rw [hnil, List.append_nil] at hsplit
    rw [hsplit] at hpre
    rw [processResults_all_ok s3 bucketName [] results hpre]
    constructor
    · intro h
      simp at h
    · rintro ⟨r, hr, hfail⟩
      have h1 := hpre r hr
      rw [← failed_eq_true_iff, h1] at hfail
      exact absurd hfail (by decide)
  · rw [hcons] at hsplit
    have hrun := processResults_first_failure s3 bucketName []
      (results.takeWhile (fun r => !r.failed)) f rest hpre hf
    rw [hsplit] at hrun
    rw [hrun]
    simp only [cleanupUploaded_no_exit s3 bucketName _ hdel, Bool.false_eq_true, if_false,
      true_iff]
    refine ⟨f, ?_, (failed_eq_true_iff f).1 hf⟩
    rw [← hsplit]
    simp

/-- C8 (evaluation at the failing input, and the rule that holds when no call to the blob
store fails). Two files, the first uploads and the second cannot be opened, results
received in task order, and the blob store fails the delete of the first key: a received
result is a failure, yet `UploadFilesWithWorkerPool` does not return `false`, the process
ends in the compensating delete. For every batch of results the loop returns `true`
exactly when no result is a failure (non-nil `Error` or `Success = false`), and, when no
delete fails, `false` exactly when some result is a failure. For every list of files and
every arrival order in which each result arrives once, when no put and no delete fails:
the received results are the results of the tasks, one per file; the function returns
`false` exactly when some received result is a failure and `true` exactly when none is;
and some received result is a failure exactly when some file cannot be opened or read.
With no file the function returns `true` without an answer and without any put or delete
call. -/
theorem pool_fails_iff_some_result_failed :
    received (deleteFailsFor "p/image_0.png") "bucket" "p"
        [goodFile "a.png", badFile "b.png"] [0, 1] =
      [⟨0, true, none, "p/image_0.png"⟩,
       ⟨1, false, some "failed to open uploaded file: file closed", ""⟩] ∧
    UploadFilesWithWorkerPool (deleteFailsFor "p/image_0.png") "bucket" "p"
        [goodFile "a.png", badFile "b.png"] [0, 1] =
      ⟨.exited,
        some (.error 500 "Failed to upload file 1: failed to open uploaded file: file closed"),
        [.put "bucket" "p/image_0.png", .delete "bucket" "p/image_0.png"]⟩ ∧
    (∀ (s3 : S3Env) (bucketName : String) (results : List FileUploadResult),
      ((processResults s3 bucketName [] results).ret = .returned true ↔
          ∀ r ∈ results, r.Error = none ∧ r.Success = true) ∧
        ((∀ key, s3.deleteErr bucketName key = false) →
          ((processResults s3 bucketName [] results).ret = .returned false ↔
            ∃ r ∈ results, r.Error ≠ none ∨ r.Success = false))) ∧
    (∀ (s3 : S3Env) (bucketName imagePrefix : String) (files : List FileHeader)
        (order : List Nat),
      order.Perm (List.range files.length) →
      (∀ key, s3.putErr bucketName key = false) →
      (∀ key, s3.deleteErr bucketName key = false) →
        (received s3 bucketName imagePrefix files order).Perm
            (fileUploadWorker s3 (queueTasks bucketName imagePrefix files)).results ∧
          (received s3 bucketName imagePrefix files order).length = files.length ∧
          ((UploadFilesWithWorkerPool s3 bucketName imagePrefix files order).ret =
              .returned false ↔
            ∃ r ∈ received s3 bucketName imagePrefix files order,
              r.Error ≠ none ∨ r.Success = false) ∧
          ((UploadFilesWithWorkerPool s3 bucketName imagePrefix files order).ret =
              .returned true ↔
            ∀ r ∈ received s3 bucketName imagePrefix files order,
              r.Error = none ∧ r.Success = true) ∧
          ((∃ r ∈ received s3 bucketName imagePrefix files order,
              r.Error ≠ none ∨ r.Success = false) ↔
            ∃ f ∈ files, f.openErr ≠ none ∨ f.readErr ≠ none)) ∧
    (∀ (s3 : S3Env) (bucketName imagePrefix : String) (order : List Nat),
      UploadFilesWithWorkerPool s3 bucketName imagePrefix [] order =
        ⟨.returned true, none, []⟩) := by
  refine ⟨by decide, by decide, ?_, ?_, ?_⟩
  · intro s3 bucketName results
    refine ⟨?_, processResults_false_iff s3 bucketName results⟩
    rw [processResults_true_iff]
    exact forall₂_congr (fun r _ => failed_eq_false_iff r)
  · intro s3 bucketName imagePrefix files order hperm hput hdel
    obtain ⟨hfiles, hbucket⟩ := queueTasks_files bucketName imagePrefix files
    obtain ⟨hex, hlen, hbad⟩ := fileUploadWorker_no_put_error s3
      (queueTasks bucketName imagePrefix files)
      (fun t ht key => by rw [hbucket t ht]; exact hput key)
    have hlen2 : (queueTasks bucketName imagePrefix files).length = files.length := by
      have := congrArg List.length hfiles
      simpa using this
    have hrecv : received s3 bucketName imagePrefix files order =
        arrival (fileUploadWorker s3 (queueTasks bucketName imagePrefix files)).results
          order := by
      unfold received
      rw [poolRun_eq]
    have hp : (received s3 bucketName imagePrefix files order).Perm
        (fileUploadWorker s3 (queueTasks bucketName imagePrefix files)).results := by
      rw [hrecv]
      exact arrival_perm _ _ (by rw [hlen, hlen2]; exact hperm)
    have hret : (UploadFilesWithWorkerPool s3 bucketName imagePrefix files order).ret =
        (processResults s3 bucketName []
          (received s3 bucketName imagePrefix files order)).ret := by
      rw [hrecv]
      unfold UploadFilesWithWorkerPool
      simp only [poolRun_eq, hex, Bool.false_eq_true, if_false]
    refine ⟨hp, by rw [hp.length_eq, hlen, hlen2], ?_, ?_, ?_⟩
    · rw [hret]
      exact processResults_false_iff s3 bucketName _ hdel
    · rw [hret, processResults_true_iff]
      exact forall₂_congr (fun r _ => failed_eq_false_iff r)
    · have h1 : (∃ r ∈ received s3 bucketName imagePrefix files order,
            r.Error ≠ none ∨ r.Success = false) ↔
          ∃ r ∈ (fileUploadWorker s3 (queueTasks bucketName imagePrefix files)).results,
            r.failed = true := by
        constructor
        · rintro ⟨r, hr, hf⟩
          exact ⟨r, hp.mem_iff.1 hr, (failed_eq_true_iff r).2 hf⟩
        · rintro ⟨r, hr, hf⟩
          exact ⟨r, hp.mem_iff.2 hr, (failed_eq_true_iff r).1 hf⟩
      rw [h1, hbad]
      constructor
      · rintro ⟨t, ht, hb⟩
        refine ⟨t.File, ?_, hb⟩
        rw [← hfiles]
        exact List.mem_map_of_mem _ ht
      · rintro ⟨f, hf, hb⟩
        rw [← hfiles] at hf
        obtain ⟨t, ht, rfl⟩ := List.mem_map.1 hf
        exact ⟨t, ht, hb⟩
  · intro s3 bucketName imagePrefix order
    simp [UploadFilesWithWorkerPool, queueTasks, poolRun, arrival_nil, processResults]

/-- C8 on two files, the second of which cannot be opened and whose result arrives
first, on two files that upload, and on the empty batch. -/
theorem pool_fails_iff_some_result_failed_witness :
    (UploadFilesWithWorkerPool okS3 "bucket" "p" [goodFile "x.png", badFile "y.png"]
        [1, 0]).ret = .returned false ∧
      (∃ r ∈ received okS3 "bucket" "p" [goodFile "x.png", badFile "y.png"] [1, 0],
        r.Error ≠ none ∨ r.Success = false) ∧
      (∃ f ∈ [goodFile "x.png", badFile "y.png"], f.openErr ≠ none ∨ f.readErr ≠ none) ∧
      (UploadFilesWithWorkerPool okS3 "bucket" "p" [goodFile "x.png", goodFile "y.png"]
        [1, 0]).ret = .returned true ∧
      UploadFilesWithWorkerPool okS3 "bucket" "p" [] [] = ⟨.returned true, none, []⟩ :=
  have h := pool_fails_iff_some_result_failed.2.2.2.1 okS3 "bucket" "p"
    [goodFile "x.png", badFile "y.png"] [1, 0] (List.Perm.swap 0 1 [])
    (fun _ => rfl) (fun _ => rfl)
  have hbad : ∃ f ∈ [goodFile "x.png", badFile "y.png"],
      f.openErr ≠ none ∨ f.readErr ≠ none :=
    ⟨badFile "y.png", by simp, Or.inl (by decide)⟩
  ⟨h.2.2.1.2 (h.2.2.2.2.2 hbad), h.2.2.2.2.2 hbad, hbad, by decide,
    pool_fails_iff_some_result_failed.2.2.2.2 okS3 "bucket" "p" []⟩

/-- C9 (evaluation at the failing input). Two files, the first cannot be opened, the
second uploads; the failure of task 0 is received first. The function returns `false`
after no delete at all, although the result of task 1 reports its key as uploaded: that
object stays in the blob store. -/
theorem late_success_is_not_deleted :
    UploadFilesWithWorkerPool okS3 "bucket" "property/property_5"
        [badFile "a.png", goodFile "b.png"] [0, 1] =
      ⟨.returned false,
        some (.error 500 "Failed to upload file 0: failed to open uploaded file: file closed"),
        [.put "bucket" "property/property_5/image_1.png"]⟩ ∧
    received okS3 "bucket" "property/property_5" [badFile "a.png", goodFile "b.png"] [0, 1] =
      [⟨0, false, some "failed to open uploaded file: file closed", ""⟩,
       ⟨1, true, none, "property/property_5/image_1.png"⟩] ∧
    deletedKeys (UploadFilesWithWorkerPool okS3 "bucket" "property/property_5"
        [badFile "a.png", goodFile "b.png"] [0, 1]).calls = [] ∧
    stored (UploadFilesWithWorkerPool okS3 "bucket" "property/property_5"
        [badFile "a.png", goodFile "b.png"] [0, 1]).calls =
      [("bucket", "property/property_5/image_1.png")] := by
  decide

/-- C10. In every run in which each result is received at most once: when
`UploadFilesWithWorkerPool` returns `false`, the keys passed to `DeleteFileFromS3` are,
up to order, the file keys of the results received before the first failing result, one
delete per result and no other; when it returns `true`, no delete is issued. -/
theorem deletes_are_the_successes_before_first_failure (s3 : S3Env)
    (bucketName imagePrefix : String) (files : List FileHeader) (order : List Nat)
    (hnd : order.Nodup) :
    ((UploadFilesWithWorkerPool s3 bucketName imagePrefix files order).ret = .returned false →
        (deletedKeys (UploadFilesWithWorkerPool s3 bucketName imagePrefix files order).calls).Perm
          (((received s3 bucketName imagePrefix files order).takeWhile
            (fun r => !r.failed)).map (fun r => r.FileKey))) ∧
      ((UploadFilesWithWorkerPool s3 bucketName imagePrefix files order).ret = .returned true →
        deletedKeys (UploadFilesWithWorkerPool s3 bucketName imagePrefix files order).calls =
          []) := by
  have hworkers : deletedKeys (poolRun s3 (if files.length < 3 then files.length else 3)
      (queueTasks bucketName imagePrefix files)).calls = [] := by
    generalize (if files.length < 3 then files.length else 3) = numWorkers
    unfold poolRun
    split
    · rfl
    · exact deletedKeys_fileUploadWorker s3 _
  have hidx :
      ((received s3 bucketName imagePrefix files order).map (fun r => r.Index)).Nodup := by
    unfold received
    rw [arrival_indices _ (fun i r h => received_index s3 _ bucketName imagePrefix files i r h)]
    exact hnd.filter _
  unfold received at hidx ⊢
  unfold UploadFilesWithWorkerPool
  simp only
  cases hex : (poolRun s3 (if files.length < 3 then files.length else 3)
      (queueTasks bucketName imagePrefix files)).exited with
  | true => simp
  | false =>
    simp only [Bool.false_eq_true, if_false, deletedKeys_append, hworkers, List.nil_append]
    constructor
    · intro hret
      rw [processResults_deleted s3 bucketName _ hidx hret]
    · intro hret
      rw [processResults_true_iff] at hret
      rw [processResults_all_ok s3 bucketName [] _ hret]
      rfl

/-- C10 on three files, the first of which cannot be opened, received in the order 2, 1,
0: the two uploaded keys are deleted. -/
theorem deletes_are_the_successes_before_first_failure_witness :
    [2, 1, 0].Nodup ∧
      (UploadFilesWithWorkerPool okS3 "bucket" "property/property_5"
          [badFile "a.png", goodFile "b.tar.gz", goodFile "c"] [2, 1, 0]).ret =
        .returned false ∧
      putKeys (UploadFilesWithWorkerPool okS3 "bucket" "property/property_5"
          [badFile "a.png", goodFile "b.tar.gz", goodFile "c"] [2, 1, 0]).calls =
        ["property/property_5/image_1.gz", "property/property_5/image_2"] ∧
      (deletedKeys (UploadFilesWithWorkerPool okS3 "bucket" "property/property_5"
          [badFile "a.png", goodFile "b.tar.gz", goodFile "c"] [2, 1, 0]).calls).Perm
        (((received okS3 "bucket" "property/property_5"
            [badFile "a.png", goodFile "b.tar.gz", goodFile "c"] [2, 1, 0]).takeWhile
          (fun r => !r.failed)).map (fun r => r.FileKey)) :=
  ⟨by decide, by decide, by decide,
    (deletes_are_the_successes_before_first_failure okS3 "bucket" "property/property_5"
      [badFile "a.png", goodFile "b.tar.gz", goodFile "c"] [2, 1, 0] (by decide)).1
      (by decide)⟩

/-! ## purchase flow: further claims -/

/-- C18. A request for a property id that no row of the store has never changes the
store, whatever the database answers, and when the lookup itself does not fail it is
answered 404 "Property not found". -/
theorem not_found_rejected (db : DB) (env : DBEnv) (pid client : Nat)
    (h : db.properties.find? (fun p => p.ID == pid) = none) :
    (CreateTransaction db env ⟨some pid, some client⟩).2 = db ∧
      (env.firstErr = false →
        (CreateTransaction db env ⟨some pid, some client⟩).1 =
          .error 404 "Property not found") := by
  constructor
  · cases hf : env.firstErr <;> simp [CreateTransaction, First, hf, h]
  · intro hf
    simp [CreateTransaction, First, hf, h]

/-- C18 on the sample store, which has no property 9. -/
theorem not_found_rejected_witness :
    sampleDB.properties.find? (fun p => p.ID == 9) = none ∧
      (CreateTransaction sampleDB noFault ⟨some 9, some 2⟩).2 = sampleDB ∧
      (CreateTransaction sampleDB noFault ⟨some 9, some 2⟩).1 =
        .error 404 "Property not found" :=
  ⟨by decide, (not_found_rejected sampleDB noFault 9 2 (by decide)).1,
    (not_found_rejected sampleDB noFault 9 2 (by decide)).2 rfl⟩

/-! ## upload: further lemmas and claims -/

/-- A worker that is not stopped by the end of the process sends one result per task it
took, in order, with the task's index, and `Success` exactly when `Error` is `nil`. -/
theorem fileUploadWorker_results (s3 : S3Env) (tasks : List FileUploadTask)
    (h : (fileUploadWorker s3 tasks).exited = false) :
    (fileUploadWorker s3 tasks).results.map (fun r => r.Index) =
        tasks.map (fun t => t.Index) ∧
      ∀ r ∈ (fileUploadWorker s3 tasks).results, (r.Success = true ↔ r.Error = none) := by
  induction tasks with
  | nil => simp [fileUploadWorker]
  | cons task rest ih =>
    unfold fileUploadWorker at h ⊢
    split at h
    · simp at h
    · next fileKey err calls heq =>
      simp only [heq]
      simp only at h
      obtain ⟨ih1, ih2⟩ := ih h
      refine ⟨by simp [ih1], ?_⟩
      intro r hr
      simp only [List.mem_cons] at hr
      rcases hr with rfl | hr
      · cases err <;> simp
      · exact ih2 r hr

/-- C11 (evaluation at the failing input). A worker takes two tasks whose files open
and read; the blob store fails the put of the second. The worker sends one result, for
task 0, and the process ends in the put of task 1: no result is sent for index 1, and
`UploadFilesWithWorkerPool` does not return. -/
theorem put_error_yields_no_result :
    fileUploadWorker (putFailsFor "p/image_1.png")
        [⟨0, goodFile "a.png", "bucket", "p"⟩, ⟨1, goodFile "b.png", "bucket", "p"⟩] =
      ⟨[⟨0, true, none, "p/image_0.png"⟩],
        [.put "bucket" "p/image_0.png", .put "bucket" "p/image_1.png"], true⟩ ∧
    (UploadFilesWithWorkerPool (putFailsFor "p/image_1.png") "bucket" "p"
        [goodFile "a.png", goodFile "b.png"] [0, 1]).ret = .exited := by
  decide

/-- C12 (evaluation at the failing input). `DeleteFileFromS3` never returns an error.
Three files, the third cannot be opened, results received in task order, and the blob
store fails the delete of the first key: the process ends in that delete, the delete of
the second key is never issued, and `UploadFilesWithWorkerPool` does not return. -/
theorem failing_delete_ends_the_process :
    (∀ (s3 : S3Env) (bucketName key err : String),
        DeleteFileFromS3 s3 bucketName key ≠ .returned (some err)) ∧
    DeleteFileFromS3 (deleteFailsFor "p/image_0.png") "bucket" "p/image_0.png" = .exited ∧
    UploadFilesWithWorkerPool (deleteFailsFor "p/image_0.png") "bucket" "p"
        [goodFile "a.png", goodFile "b.png", badFile "c.png"] [0, 1, 2] =
      ⟨.exited,
        some (.error 500 "Failed to upload file 2: failed to open uploaded file: file closed"),
        [.put "bucket" "p/image_0.png", .put "bucket" "p/image_1.png",
         .delete "bucket" "p/image_0.png"]⟩ ∧
    deletedKeys (UploadFilesWithWorkerPool (deleteFailsFor "p/image_0.png") "bucket" "p"
        [goodFile "a.png", goodFile "b.png", badFile "c.png"] [0, 1, 2]).calls =
      ["p/image_0.png"] := by
  refine ⟨?_, by decide, by decide, by decide⟩
  intro s3 bucketName key err
  unfold DeleteFileFromS3
  split <;> simp

/-! ## storage keys: auxiliary lemmas -/

theorem digitChar_value : ∀ d, d < 10 → (Nat.digitChar d).toNat - 48 = d := by decide

theorem digitChar_ne_dot : ∀ d, d < 10 → Nat.digitChar d ≠ '.' := by decide

/-- Reading back what `%d` writes in front of `ds`. -/
theorem toDigitsCore_value (fuel n : Nat) (ds : List Char) (h : n < fuel) :
    (decimalValue (Nat.toDigitsCore 10 fuel n ds)).1 =
      (decimalValue ds).1 + n * (decimalValue ds).2 := by
  induction fuel generalizing n ds with
  | zero => omega
  | succ fuel ih =>
    unfold Nat.toDigitsCore
    simp only
    have hd : (Nat.digitChar (n % 10)).toNat - 48 = n % 10 :=
      digitChar_value (n % 10) (Nat.mod_lt n (by decide))
    split
    · next h0 =>
      have hn : n % 10 = n := by omega
      rw [hn] at hd
      simp only [decimalValue, hn, hd]
    · next h0 =>
      rw [ih (n / 10) _ (by omega)]
      simp only [decimalValue, hd]
      have : n = n % 10 + 10 * (n / 10) := (Nat.mod_add_div n 10).symm
      generalize (decimalValue ds).2 = w at *
      generalize (decimalValue ds).1 = v at *
      calc v + n % 10 * w + n / 10 * (10 * w) = v + (n % 10 + 10 * (n / 10)) * w := by ring
        _ = v + n * w := by rw [← this]

/-- The decimal rendering of a natural number determines it. -/
theorem toString_nat_injective (i j : Nat) (h : toString i = toString j) : i = j := by
  have hd : Nat.toDigits 10 i = Nat.toDigits 10 j := by
    have := congrArg String.data h
    exact this
  have hi := toDigitsCore_value (i + 1) i [] (Nat.lt_succ_self i)
  have hj := toDigitsCore_value (j + 1) j [] (Nat.lt_succ_self j)
  unfold Nat.toDigits at hd
  rw [hd, hj] at hi
  simpa [decimalValue] using hi.symm

/-- The decimal rendering of a natural number contains no dot. -/
theorem toDigitsCore_no_dot (fuel n : Nat) (ds : List Char) (hds : ∀ c ∈ ds, c ≠ '.') :
    ∀ c ∈ Nat.toDigitsCore 10 fuel n ds, c ≠ '.' := by
  induction fuel generalizing n ds with
  | zero => simpa [Nat.toDigitsCore] using hds
  | succ fuel ih =>
    unfold Nat.toDigitsCore
    simp only
    have hcons : ∀ c ∈ Nat.digitChar (n % 10) :: ds, c ≠ '.' := by
      intro c hc
      rcases List.mem_cons.1 hc with rfl | hc
      · exact digitChar_ne_dot (n % 10) (Nat.mod_lt n (by decide))
      · exact hds c hc
    split
    · exact hcons
    · exact ih (n / 10) _ hcons

theorem toString_nat_no_dot (i : Nat) : ∀ c ∈ (toString i).data, c ≠ '.' :=
  toDigitsCore_no_dot (i + 1) i [] (by simp)

/-- The result of the scan is empty or begins with the dot it stopped at, and is a
suffix of the scanned path. -/
theorem extScan_shape (l acc : List Char) :
    (extScan l acc = [] ∨ ∃ rest, extScan l acc = '.' :: rest) ∧
      extScan l acc <:+ l.reverse ++ acc := by
  induction l generalizing acc with
  | nil => simp [extScan]
  | cons c l ih =>
    unfold extScan
    by_cases h1 : c = '/'
    · simp [h1]
    · by_cases h2 : c = '.'
      · simp only [h1, h2, if_false, if_true]
        refine ⟨Or.inr ⟨acc, rfl⟩, ?_⟩
        simp only [List.reverse_cons, List.append_assoc, List.singleton_append]
        exact List.suffix_append _ _
      · simp only [h1, h2, if_false]
        obtain ⟨ih1, ih2⟩ := ih (c :: acc)
        refine ⟨ih1, ?_⟩
        simpa using ih2

/-- Without a dot in the path the scan finds nothing. -/
theorem extScan_no_dot (l acc : List Char) (h : ∀ c ∈ l, c ≠ '.') : extScan l acc = [] := by
  induction l generalizing acc with
  | nil => rfl
  | cons c l ih =>
    unfold extScan
    have hc : c ≠ '.' := h c (List.mem_cons_self _ _)
    by_cases h1 : c = '/'
    · simp [h1]
    · simp only [h1, hc, if_false]
      exact ih _ (fun x hx => h x (List.mem_cons_of_mem _ hx))

/-- Two texts made of a dot-free part followed by nothing or by a part that begins with
a dot agree only if the dot-free parts agree. -/
theorem dot_free_prefix_unique (l1 l2 e1 e2 : List Char)
    (h1 : ∀ c ∈ l1, c ≠ '.') (h2 : ∀ c ∈ l2, c ≠ '.')
    (he1 : e1 = [] ∨ ∃ rest, e1 = '.' :: rest) (he2 : e2 = [] ∨ ∃ rest, e2 = '.' :: rest)
    (h : l1 ++ e1 = l2 ++ e2) : l1 = l2 := by
  induction l1 generalizing l2 with
  | nil =>
    cases l2 with
    | nil => rfl
    | cons c l2 =>
      exfalso
      have hc : c ≠ '.' := h2 c (List.mem_cons_self _ _)
      rcases he1 with rfl | ⟨rest, rfl⟩
      · simp at h
      · simp only [List.nil_append, List.cons_append, List.cons.injEq] at h
        exact hc h.1.symm
  | cons a l1 ih =>
    cases l2 with
    | nil =>
      exfalso
      have ha : a ≠ '.' := h1 a (List.mem_cons_self _ _)
      rcases he2 with rfl | ⟨rest, rfl⟩
      · simp at h
      · simp only [List.nil_append, List.cons_append, List.cons.injEq] at h
        exact ha h.1
    | cons c l2 =>
      simp only [List.cons_append, List.cons.injEq] at h
      rw [h.1, ih l2 (fun x hx => h1 x (List.mem_cons_of_mem _ hx))
        (fun x hx => h2 x (List.mem_cons_of_mem _ hx)) h.2]

/-- The key of a successful upload. -/
theorem uploadFileToS3_key (s3 : S3Env) (task : FileUploadTask) (key : String)
    (calls : List S3Call) (h : uploadFileToS3 s3 task = (.returned (key, none), calls)) :
    key = task.ImagePrefix ++ "/image_" ++ toString task.Index ++ Ext task.File.Filename := by
  unfold uploadFileToS3 at h
  cases ho : task.File.openErr with
  | some e => simp [ho] at h
  | none =>
    cases hr : task.File.readErr with
    | some e => simp [ho, hr] at h
    | none =>
      simp only [ho, hr] at h
      split at h
      · simp at h
      · simp at h
      · simp only [Prod.mk.injEq, Outcome.returned.injEq, and_true] at h
        exact h.1.symm

/-! ## storage keys: the claim -/

/-- C13. The key returned by a successful `uploadFileToS3` is the image prefix, "/image_",
the index in decimal and the extension of the file name, where the extension is a suffix
of the file name that is empty or begins with a dot, and empty when the name has no dot.
Two successful uploads with the same prefix, index and file name get the same key,
whatever else differs; with the same prefix and different indices they get different
keys. -/
theorem storage_key_format (s3 s3' : S3Env) (t1 t2 : FileUploadTask) (k1 k2 : String)
    (c1 c2 : List S3Call)
    (h1 : uploadFileToS3 s3 t1 = (.returned (k1, none), c1))
    (h2 : uploadFileToS3 s3' t2 = (.returned (k2, none), c2)) :
    k1 = t1.ImagePrefix ++ "/image_" ++ toString t1.Index ++ Ext t1.File.Filename ∧
      ((Ext t1.File.Filename = "" ∨ ∃ rest, (Ext t1.File.Filename).data = '.' :: rest) ∧
        (Ext t1.File.Filename).data <:+ t1.File.Filename.data ∧
        ((∀ c ∈ t1.File.Filename.data, c ≠ '.') → Ext t1.File.Filename = "")) ∧
      (t1.ImagePrefix = t2.ImagePrefix → t1.Index = t2.Index →
        t1.File.Filename = t2.File.Filename → k1 = k2) ∧
      (t1.ImagePrefix = t2.ImagePrefix → t1.Index ≠ t2.Index → k1 ≠ k2) := by
  have e1 := uploadFileToS3_key s3 t1 k1 c1 h1
  have e2 := uploadFileToS3_key s3' t2 k2 c2 h2
  have shape : ∀ f : String,
      ((Ext f).data = [] ∨ ∃ rest, (Ext f).data = '.' :: rest) ∧ (Ext f).data <:+ f.data := by
    intro f
    have := extScan_shape f.data.reverse []
    simpa [Ext] using this
  refine ⟨e1, ⟨?_, (shape _).2, ?_⟩, ?_, ?_⟩
  · rcases (shape t1.File.Filename).1 with h | h
    · exact Or.inl (String.ext h)
    · exact Or.inr h
  · intro hnodot
    apply String.ext
    show extScan t1.File.Filename.data.reverse [] = []
    exact extScan_no_dot _ _ (fun c hc => hnodot c (List.mem_reverse.1 hc))
  · intro hp hi hf
    rw [e1, e2, hp, hi, hf]
  · intro hp hi heq
    apply hi
    rw [e1, e2, hp] at heq
    have hdata := congrArg String.data heq
    simp only [String.data_append, List.append_assoc] at hdata
    have hdata := List.append_cancel_left (List.append_cancel_left hdata)
    exact toString_nat_injective _ _ (String.ext
      (dot_free_prefix_unique _ _ _ _ (toString_nat_no_dot _) (toString_nat_no_dot _)
        (shape _).1 (shape _).1 hdata))

/-- C13 on two files of one request, `a.png` with index 0 and `b.tar.gz` with index 1. -/
theorem storage_key_format_witness :
    uploadFileToS3 okS3 ⟨0, goodFile "a.png", "bucket", "property/property_5"⟩ =
        (.returned ("property/property_5/image_0.png", none),
          [.put "bucket" "property/property_5/image_0.png"]) ∧
      uploadFileToS3 okS3 ⟨1, goodFile "b.tar.gz", "bucket", "property/property_5"⟩ =
        (.returned ("property/property_5/image_1.gz", none),
          [.put "bucket" "property/property_5/image_1.gz"]) ∧
      ("property/property_5/image_0.png" : String) ≠ "property/property_5/image_1.gz" :=
  ⟨by decide, by decide,
    (storage_key_format okS3 okS3 ⟨0, goodFile "a.png", "bucket", "property/property_5"⟩
      ⟨1, goodFile "b.tar.gz", "bucket", "property/property_5"⟩
      "property/property_5/image_0.png" "property/property_5/image_1.gz"
      [.put "bucket" "property/property_5/image_0.png"]
      [.put "bucket" "property/property_5/image_1.gz"] (by decide) (by decide)).2.2.2 rfl
      (by decide)⟩

/-! ## cache key: auxiliary lemmas -/

theorem sortStrings_sorted (l : List String) :
    List.Sorted (fun a b : String => a.data ≤ b.data) (sortStrings l) := by
  haveI : IsTotal String (fun a b => a.data ≤ b.data) := ⟨fun a b => le_total a.data b.data⟩
  haveI : IsTrans String (fun a b => a.data ≤ b.data) := ⟨fun _ _ _ h1 h2 => le_trans h1 h2⟩
  exact List.sorted_insertionSort _ l

theorem sortStrings_perm (l : List String) : (sortStrings l).Perm l :=
  List.perm_insertionSort _ l

/-- Two sorted lists with the same entries are equal. -/
theorem sorted_perm_eq (l1 l2 : List String) (hp : l1.Perm l2)
    (h1 : List.Sorted (fun a b : String => a.data ≤ b.data) l1)
    (h2 : List.Sorted (fun a b : String => a.data ≤ b.data) l2) : l1 = l2 := by
  haveI : IsAntisymm String (fun a b => a.data ≤ b.data) :=
    ⟨fun _ _ h1 h2 => String.ext (le_antisymm h1 h2)⟩
  exact List.eq_of_perm_of_sorted hp h1 h2

theorem sortStrings_congr (l1 l2 : List String) (hp : l1.Perm l2) :
    sortStrings l1 = sortStrings l2 :=
  sorted_perm_eq _ _ (((sortStrings_perm l1).trans hp).trans (sortStrings_perm l2).symm)
    (sortStrings_sorted l1) (sortStrings_sorted l2)

/-- Sorting and then dropping entries gives the same list as dropping and then sorting. -/
theorem sortStrings_filter (P : String → Bool) (l : List String) :
    (sortStrings l).filter P = sortStrings (l.filter P) :=
  sorted_perm_eq _ _
    (((sortStrings_perm l).filter P).trans (sortStrings_perm (l.filter P)).symm)
    ((sortStrings_sorted l).filter P) (sortStrings_sorted (l.filter P))

theorem filterMap_ite (P : String → Prop) [DecidablePred P] (f : String → String)
    (l : List String) :
    l.filterMap (fun k => if P k then some (f k) else none) =
      (l.filter (fun k => decide (P k))).map f := by
  induction l with
  | nil => rfl
  | cons a l ih =>
    by_cases h : P a <;> simp [List.filterMap_cons, List.filter_cons, h, ih]

/-- A key with a non-empty value is a key of the map. -/
theorem mem_mapKeys_of_mapGet (params : List (String × String)) (k : String)
    (h : mapGet params k ≠ "") : k ∈ mapKeys params := by
  unfold mapKeys
  rw [List.mem_dedup]
  induction params with
  | nil => simp [mapGet, List.lookup] at h
  | cons e params ih =>
    obtain ⟨k', v⟩ := e
    by_cases hk : k = k'
    · simp [hk]
    · have hb : (k == k') = false := by simpa using hk
      have : mapGet ((k', v) :: params) k = mapGet params k := by
        simp [mapGet, List.lookup, hb]
      rw [this] at h
      exact List.mem_cons_of_mem _ (ih h)

/-- The keys with a non-empty value, as the code and the specification list them. -/
theorem mem_nonEmpty (params : List (String × String)) (k : String) :
    k ∈ (mapKeys params).filter (fun k => decide (mapGet params k ≠ "")) ↔
      mapGet params k ≠ "" := by
  rw [List.mem_filter]
  constructor
  · intro h; simpa using h.2
  · intro h; exact ⟨mem_mapKeys_of_mapGet params k h, by simpa using h⟩

/-- The code's key is the key the specification words. -/
theorem GeneratePropertiesCacheKey_eq_spec (params : List (String × String)) :
    GeneratePropertiesCacheKey params = cacheKeySpec params := by
  unfold GeneratePropertiesCacheKey cacheKeySpec
  simp only
  rw [filterMap_ite (fun k => mapGet params k ≠ "") (fun k => k ++ ":" ++ mapGet params k),
    sortStrings_filter]
  have hlen : ((sortStrings ((mapKeys params).filter
      (fun k => decide (mapGet params k ≠ "")))).map
        (fun k => k ++ ":" ++ mapGet params k)).length = 0 ↔
      (mapKeys params).filter (fun k => decide (mapGet params k ≠ "")) = [] := by
    rw [List.length_map, (sortStrings_perm _).length_eq, List.length_eq_zero]
  by_cases h : (mapKeys params).filter (fun k => decide (mapGet params k ≠ "")) = []
  · rw [if_pos (hlen.2 h), if_pos h]
  · rw [if_neg (fun e => h (hlen.1 e)), if_neg h]

/-! ## cache key: the claim -/

/-- C14. For every parameter map the key returned by `GeneratePropertiesCacheKey` is the
one the specification words (`cacheKeySpec`): "properties:all" when no parameter has a
non-empty value, otherwise "properties:" followed by the `name:value` pairs of exactly the
non-empty parameters, ascending by name, joined by ":". Two maps that give every name
the same value, an absent name counting as empty, get the same key. -/
theorem cache_key_of_nonempty_params (params params' : List (String × String)) :
    GeneratePropertiesCacheKey params = cacheKeySpec params ∧
      ((∀ k, mapGet params k = "") → GeneratePropertiesCacheKey params = "properties:all") ∧
      ((∃ k, mapGet params k ≠ "") →
        GeneratePropertiesCacheKey params =
          "properties:" ++ ":".intercalate
            ((sortStrings ((mapKeys params).filter (fun k => mapGet params k ≠ ""))).map
              (fun k => k ++ ":" ++ mapGet params k))) ∧
      (∀ k, k ∈ sortStrings ((mapKeys params).filter (fun k => mapGet params k ≠ "")) ↔
        mapGet params k ≠ "") ∧
      List.Sorted (fun a b : String => a.data ≤ b.data)
        (sortStrings ((mapKeys params).filter (fun k => mapGet params k ≠ ""))) ∧
      (sortStrings ((mapKeys params).filter (fun k => mapGet params k ≠ ""))).Nodup ∧
      ((∀ k, mapGet params k = mapGet params' k) →
        GeneratePropertiesCacheKey params = GeneratePropertiesCacheKey params') := by
  have hnodup : ∀ p : List (String × String),
      ((mapKeys p).filter (fun k => decide (mapGet p k ≠ ""))).Nodup :=
    fun p => (List.nodup_dedup _).filter _
  refine ⟨GeneratePropertiesCacheKey_eq_spec params, ?_, ?_, ?_, sortStrings_sorted _, ?_, ?_⟩
  · intro hall
    rw [GeneratePropertiesCacheKey_eq_spec]
    unfold cacheKeySpec
    have : (mapKeys params).filter (fun k => decide (mapGet params k ≠ "")) = [] := by
      rw [List.filter_eq_nil_iff]
      intro k _
      simp [hall k]
    simp only [this, if_true]
  · rintro ⟨k, hk⟩
    rw [GeneratePropertiesCacheKey_eq_spec]
    unfold cacheKeySpec
    have : (mapKeys params).filter (fun k => decide (mapGet params k ≠ "")) ≠ [] := by
      intro e
      have := (mem_nonEmpty params k).2 hk
      rw [e] at this
      simp at this
    simp only [this, if_false]
  · intro k
    rw [(sortStrings_perm _).mem_iff]
    exact mem_nonEmpty params k
  · exact (sortStrings_perm _).nodup_iff.2 (hnodup params)
  · intro hsame
    rw [GeneratePropertiesCacheKey_eq_spec, GeneratePropertiesCacheKey_eq_spec]
    unfold cacheKeySpec
    have hperm : ((mapKeys params).filter (fun k => decide (mapGet params k ≠ ""))).Perm
        ((mapKeys params').filter (fun k => decide (mapGet params' k ≠ ""))) := by
      rw [List.perm_ext_iff_of_nodup (hnodup params) (hnodup params')]
      intro k
      rw [mem_nonEmpty, mem_nonEmpty, hsame k]
    have hfun : (fun k => k ++ ":" ++ mapGet params k) =
        (fun k => k ++ ":" ++ mapGet params' k) := by
      funext k; rw [hsame k]
    simp only [sortStrings_congr _ _ hperm, hfun]
    have hnil : (mapKeys params).filter (fun k => decide (mapGet params k ≠ "")) = [] ↔
        (mapKeys params').filter (fun k => decide (mapGet params' k ≠ "")) = [] := by
      constructor
      · intro e; rw [e] at hperm; exact hperm.symm.eq_nil
      · intro e; rw [e] at hperm; exact hperm.eq_nil
    by_cases h : (mapKeys params).filter (fun k => decide (mapGet params k ≠ "")) = []
    · rw [if_pos h, if_pos (hnil.1 h)]
    · rw [if_neg h, if_neg (fun e => h (hnil.2 e))]

/-- C14 on the map `GetProperties` builds for `?categoryId=3&description=sea view&maxPrice=900`,
and on the same map without its empty parameters. -/
theorem cache_key_of_nonempty_params_witness :
    GeneratePropertiesCacheKey
        [("categoryId", "3"), ("typeId", ""), ("description", "sea view"), ("minPrice", ""),
         ("maxPrice", "900")] =
      "properties:categoryId:3:description:sea view:maxPrice:900" ∧
    GeneratePropertiesCacheKey
        [("categoryId", ""), ("typeId", ""), ("description", ""), ("minPrice", ""),
         ("maxPrice", "")] = "properties:all" ∧
    GeneratePropertiesCacheKey
        [("categoryId", "3"), ("typeId", ""), ("description", "sea view"), ("minPrice", ""),
         ("maxPrice", "900")] =
      GeneratePropertiesCacheKey
        [("maxPrice", "900"), ("description", "sea view"), ("categoryId", "3")] :=
  ⟨by decide, by decide,
    (cache_key_of_nonempty_params
      [("categoryId", "3"), ("typeId", ""), ("description", "sea view"), ("minPrice", ""),
       ("maxPrice", "900")]
      [("maxPrice", "900"), ("description", "sea view"), ("categoryId", "3")]).2.2.2.2.2.2
      (by
        intro k
        simp only [mapGet, List.lookup]
        by_cases h1 : k = "categoryId"
        · subst h1; decide
        · by_cases h2 : k = "typeId"
          · subst h2; decide
          · by_cases h3 : k = "description"
            · subst h3; decide
            · by_cases h4 : k = "minPrice"
              · subst h4; decide
              · by_cases h5 : k = "maxPrice"
                · subst h5; decide
                · rw [beq_false_of_ne h1, beq_false_of_ne h2, beq_false_of_ne h3,
                    beq_false_of_ne h4, beq_false_of_ne h5])⟩

/-! ## read path: the claim -/

/-- How `getPropertiesFromCache` answers, by what the cache side does. -/
theorem getPropertiesFromCache_cases (r : Redis) (cache : CacheEnv) (key : String) :
    (∀ cached, cache.getErr = false → cache.unmarshalErr = false → r.get key = some cached →
      getPropertiesFromCache r cache key = .ok (some cached)) ∧
    ((cache.getErr = true ∨ r.get key = none ∨ cache.unmarshalErr = true) →
      getPropertiesFromCache r cache key = .ok none ∨
        getPropertiesFromCache r cache key = .error ()) := by
  unfold getPropertiesFromCache
  constructor
  · intro cached hg hu hget
    simp [hg, hu, hget]
  · intro h
    cases hg : cache.getErr with
    | true => simp
    | false =>
      cases hget : r.get key with
      | none => simp
      | some v =>
        cases hu : cache.unmarshalErr with
        | true => simp
        | false => simp [hg, hget, hu] at h

/-- C17 (evaluation at the failing input, and the rule that holds with a client). Redis
did not answer the ping at start-up, so the handler holds a nil client: every
`GetProperties` request panics in the cache read, the database is not queried and no
list is answered, whatever the filters and the store are; so it is for the unfiltered
request on the sample store. With a client that is not nil, for every filter set, with
`key` the cache key of its parameters: when the read of `key` succeeds and finds a value
(a hit), the answer is that value tagged "cache", the database is not queried and the
cache is left as it was; when the cache has no value for `key` or the read fails (`GET`
or the decoding returns an error), and the database query succeeds, the answer is the
result of the query tagged "database", and unless encoding or `SET` fails the cache then
holds that result under `key`; and whenever the database query succeeds the answer is a
list of properties, whatever errors the cache commands return. -/
theorem read_through (db : DB) (r : Redis) (cache : CacheEnv) (q : QueryEnv) (f : Filters) :
    (cache.nilClient = true → GetProperties db r cache q f = ⟨.panicked, r, false⟩) ∧
    GetProperties sampleDB ⟨[]⟩ { okCache with nilClient := true } okQuery noFilters =
      ⟨.panicked, ⟨[]⟩, false⟩ ∧
    (cache.nilClient = false →
      (∀ cached, cache.getErr = false → cache.unmarshalErr = false →
          r.get (GeneratePropertiesCacheKey f.params) = some cached →
        GetProperties db r cache q f = ⟨.properties cached "cache", r, false⟩) ∧
      (∀ rows, (cache.getErr = true ∨ r.get (GeneratePropertiesCacheKey f.params) = none ∨
          cache.unmarshalErr = true) →
        Find db q (f.conditions q) = some rows →
        (GetProperties db r cache q f).reply = .properties rows "database" ∧
          (GetProperties db r cache q f).queried = true ∧
          (cache.marshalErr = false → cache.setErr = false →
            (GetProperties db r cache q f).redis.get (GeneratePropertiesCacheKey f.params) =
              some rows)) ∧
      (q.findErr = false →
        ∃ properties source, (GetProperties db r cache q f).reply =
          .properties properties source)) := by
  refine ⟨?_, by decide, ?_⟩
  · intro hnil
    simp [GetProperties, hnil]
  intro hnil
  refine ⟨?_, ?_, ?_⟩
  · intro cached hg hu hget
    have h := (getPropertiesFromCache_cases r cache _).1 cached hg hu hget
    simp [GetProperties, hnil, h]
  · intro rows hmiss hfind
    have hrun : GetProperties db r cache q f =
        ⟨.properties rows "database",
          (cacheProperties r cache (GeneratePropertiesCacheKey f.params) rows).2, true⟩ := by
      rcases (getPropertiesFromCache_cases r cache _).2 hmiss with h | h <;>
        simp [GetProperties, hnil, h, hfind]
    rw [hrun]
    refine ⟨rfl, rfl, ?_⟩
    intro hm hs
    simp [cacheProperties, hm, hs, Redis.set, Redis.get, List.lookup]
  · intro hfind
    have hsome : ∃ rows, Find db q (f.conditions q) = some rows := by
      simp [Find, hfind]
    obtain ⟨rows, hrows⟩ := hsome
    cases hget : getPropertiesFromCache r cache (GeneratePropertiesCacheKey f.params) with
    | error e => exact ⟨rows, "database", by simp [GetProperties, hnil, hget, hrows]⟩
    | ok o =>
      cases o with
      | none => exact ⟨rows, "database", by simp [GetProperties, hnil, hget, hrows]⟩
      | some cached => exact ⟨cached, "cache", by simp [GetProperties, hnil, hget]⟩

/-- C17 on the sample store: with a nil client the unfiltered request panics; with a
client, a first request without filters misses the empty cache and is answered from the
database, a second one is answered from the cache. -/
theorem read_through_witness :
    GetProperties sampleDB ⟨[]⟩ { okCache with nilClient := true } okQuery noFilters =
        ⟨.panicked, ⟨[]⟩, false⟩ ∧
      (GetProperties sampleDB ⟨[]⟩ okCache okQuery noFilters).reply =
        .properties (sampleDB.properties.map (Preload sampleDB)) "database" ∧
      (GetProperties sampleDB ⟨[]⟩ okCache okQuery noFilters).redis.get "properties:all" =
        some (sampleDB.properties.map (Preload sampleDB)) ∧
      GetProperties sampleDB (GetProperties sampleDB ⟨[]⟩ okCache okQuery noFilters).redis
          okCache okQuery noFilters =
        ⟨.properties (sampleDB.properties.map (Preload sampleDB)) "cache",
          (GetProperties sampleDB ⟨[]⟩ okCache okQuery noFilters).redis, false⟩ :=
  ⟨(read_through sampleDB ⟨[]⟩ { okCache with nilClient := true } okQuery noFilters).1 rfl,
    (((read_through sampleDB ⟨[]⟩ okCache okQuery noFilters).2.2 rfl).2.1
      (sampleDB.properties.map (Preload sampleDB)) (Or.inr (Or.inl rfl)) rfl).1,
    (((read_through sampleDB ⟨[]⟩ okCache okQuery noFilters).2.2 rfl).2.1
      (sampleDB.properties.map (Preload sampleDB)) (Or.inr (Or.inl rfl)) rfl).2.2 rfl rfl,
    ((read_through sampleDB (GetProperties sampleDB ⟨[]⟩ okCache okQuery noFilters).redis
      okCache okQuery noFilters).2.2 rfl).1 (sampleDB.properties.map (Preload sampleDB))
      rfl rfl rfl⟩

/-! ## write paths: auxiliary lemmas -/

theorem lookup_eq_none (key : String) (l : List (String × List Property))
    (h : ∀ e ∈ l, e.1 ≠ key) : l.lookup key = none := by
  induction l with
  | nil => rfl
  | cons e l ih =>
    obtain ⟨k, v⟩ := e
    have hk : k ≠ key := h (k, v) (List.mem_cons_self _ _)
    have hb : (key == k) = false := beq_false_of_ne (fun e => hk e.symm)
    simp only [List.lookup, hb]
    exact ih (fun e he => h e (List.mem_cons_of_mem _ he))

/-- Every generated key matches the invalidation pattern. -/
theorem GeneratePropertiesCacheKey_matches (params : List (String × String)) :
    matchesPropertiesPattern (GeneratePropertiesCacheKey params) = true := by
  unfold matchesPropertiesPattern GeneratePropertiesCacheKey
  simp only
  split
  · decide
  · rw [String.data_append, List.isPrefixOf_iff_prefix]
    exact List.prefix_append _ _

/-- After an invalidation that returns no error, no key of the namespace is cached. -/
theorem invalidatePropertyCache_clears (r : Redis) (cache : CacheEnv)
    (h : (invalidatePropertyCache r cache).1 = false) (key : String)
    (hkey : matchesPropertiesPattern key = true) :
    (invalidatePropertyCache r cache).2.get key = none := by
  unfold invalidatePropertyCache at h ⊢
  cases hk : cache.keysErr with
  | true => simp [hk] at h
  | false =>
    simp only [hk, Bool.false_eq_true, if_false] at h ⊢
    by_cases hlen : ((r.entries.map Prod.fst).filter matchesPropertiesPattern).length > 0
    · simp only [hlen, if_true] at h ⊢
      cases hd : cache.delErr with
      | true => simp [hd] at h
      | false =>
        simp only [Bool.false_eq_true, if_false]
        apply lookup_eq_none
        intro e he hek
        rw [List.mem_filter] at he
        have hmem : e.1 ∈ (r.entries.map Prod.fst).filter matchesPropertiesPattern := by
          rw [List.mem_filter]
          exact ⟨List.mem_map_of_mem _ he.1, by rw [hek]; exact hkey⟩
        have := he.2
        simp [hmem] at this
    · simp only [hlen, if_false]
      apply lookup_eq_none
      intro e he hek
      apply hlen
      apply List.length_pos_of_mem (a := e.1)
      rw [List.mem_filter]
      exact ⟨List.mem_map_of_mem _ he, by rw [hek]; exact hkey⟩

/-- An answer that ends the request before the record exists is an error answer. -/
theorem createPropertyRecord_error (db : DB) (env : CreateEnv) (req : CreateRequest)
    (reply : Reply) (h : createPropertyRecord db env req = .error reply) :
    ∃ status msg, reply = .error status msg := by
  unfold createPropertyRecord at h
  repeat' split at h
  all_goals first
    | (simp only [Except.error.injEq] at h; exact ⟨_, _, h.symm⟩)
    | simp at h

/-- After a creation answered 201 the cache is the one `invalidatePropertyCache` left,
the upload had returned `true` and the new row carries the image prefix. -/
theorem CreateProperty_created (db : DB) (r : Redis) (env : CreateEnv) (req : CreateRequest)
    (data : Option Property)
    (h : (CreateProperty db r env req).reply =
      .returned (.message 201 "Property created successfully" data)) :
    (CreateProperty db r env req).redis = (invalidatePropertyCache r env.cache).2 := by
  cases hrec : createPropertyRecord db env req with
  | error reply =>
    obtain ⟨status, msg, rfl⟩ := createPropertyRecord_error db env req reply hrec
    simp [CreateProperty, hrec] at h
  | ok pr =>
    obtain ⟨property, db1⟩ := pr
    simp only [CreateProperty, hrec] at h ⊢
    split at h
    · simp at h
    · split at h
      · simp at h
      · simp at h
      · split at h
        · split at h <;> simp at h
        · split at h
          · simp at h
          · rw [if_neg (by assumption), if_neg (by assumption)]

/-- C16. After a `CreateProperty` answered 201 whose `invalidatePropertyCache` call
returned no error, the cache holds no entry under any key that
`GeneratePropertiesCacheKey` returns: every generated key matches the pattern
"properties:*", and no key matching the pattern is left. -/
theorem created_property_clears_cache (db : DB) (r : Redis) (env : CreateEnv)
    (req : CreateRequest) (data : Option Property)
    (h : (CreateProperty db r env req).reply =
      .returned (.message 201 "Property created successfully" data))
    (hinv : (invalidatePropertyCache r env.cache).1 = false)
    (params : List (String × String)) :
    matchesPropertiesPattern (GeneratePropertiesCacheKey params) = true ∧
      (CreateProperty db r env req).redis.get (GeneratePropertiesCacheKey params) = none ∧
      ∀ key, matchesPropertiesPattern key = true →
        (CreateProperty db r env req).redis.get key = none := by
  rw [CreateProperty_created db r env req data h]
  exact ⟨GeneratePropertiesCacheKey_matches params,
    invalidatePropertyCache_clears r env.cache hinv _ (GeneratePropertiesCacheKey_matches params),
    fun key hkey => invalidatePropertyCache_clears r env.cache hinv key hkey⟩

/-- C16 on the sample store: owner 1 creates a property with one image while the cache
holds the unfiltered list; afterwards no generated key is cached, the foreign entry
is. -/
theorem created_property_clears_cache_witness :
    (CreateProperty sampleStore sampleRedis (okCreate [0])
        ⟨some (sampleForm [goodFile "a.png"]), some 1⟩).reply =
      .returned (.message 201 "Property created successfully"
        (some { sampleProperty 5 1 1 "available" with
          Name := "loft", Description := "top floor", Price := 1150681088,
          ImagePrefix := "property/property_5" })) ∧
    (CreateProperty sampleStore sampleRedis (okCreate [0])
        ⟨some (sampleForm [goodFile "a.png"]), some 1⟩).redis = ⟨[("users:all", [])]⟩ ∧
    (CreateProperty sampleStore sampleRedis (okCreate [0])
        ⟨some (sampleForm [goodFile "a.png"]), some 1⟩).redis.get
      (GeneratePropertiesCacheKey [("typeId", "2")]) = none :=
  ⟨by decide, by decide,
    (created_property_clears_cache sampleStore sampleRedis (okCreate [0])
      ⟨some (sampleForm [goodFile "a.png"]), some 1⟩
      (some { sampleProperty 5 1 1 "available" with
        Name := "loft", Description := "top floor", Price := 1150681088,
        ImagePrefix := "property/property_5" })
      (by decide) (by decide) [("typeId", "2")]).2.1⟩

/-- C15 (evaluation at the failing inputs). The cache holds the unfiltered list of the
sample store. Then client 2 buys property 1 (answered 201, status now "sold"), or owner 1
renames property 3 (answered 200), or owner 1 deletes property 4 (answered 200). None of
the three calls touches the cache, and the same unfiltered `GetProperties` afterwards is
answered from the cache with the list of before the write, which is not what the
database now holds. -/
theorem stale_cache_after_write :
    filledRedis.get "properties:all" = some (sampleStore.properties.map (Preload sampleStore)) ∧
    -- the status flip of `CreateTransaction`
    ((CreateTransaction sampleStore noFault ⟨some 1, some 2⟩).1 =
        .created "Property sold successfully" ⟨7, 2, 1, 1, "buy"⟩ ∧
      statusOf (CreateTransaction sampleStore noFault ⟨some 1, some 2⟩).2 1 = some "sold" ∧
      (GetProperties (CreateTransaction sampleStore noFault ⟨some 1, some 2⟩).2 filledRedis
          okCache okQuery noFilters).reply =
        .properties (sampleStore.properties.map (Preload sampleStore)) "cache" ∧
      Find (CreateTransaction sampleStore noFault ⟨some 1, some 2⟩).2 okQuery
          (noFilters.conditions okQuery) ≠
        some (sampleStore.properties.map (Preload sampleStore))) ∧
    -- `UpdateProperty`
    ((UpdateProperty sampleStore okModify
          ⟨"3", some 1, some 1, some { zeroProperty with Name := "villa" }, false⟩).1 =
        .message 200 "Property updated successfully"
          (some { sampleProperty 3 1 2 "available" with Name := "villa" }) ∧
      (GetProperties (UpdateProperty sampleStore okModify
            ⟨"3", some 1, some 1, some { zeroProperty with Name := "villa" }, false⟩).2 filledRedis
          okCache okQuery noFilters).reply =
        .properties (sampleStore.properties.map (Preload sampleStore)) "cache" ∧
      Find (UpdateProperty sampleStore okModify
            ⟨"3", some 1, some 1, some { zeroProperty with Name := "villa" }, false⟩).2 okQuery
          (noFilters.conditions okQuery) ≠
        some (sampleStore.properties.map (Preload sampleStore))) ∧
    -- `DeleteProperty`
    ((DeleteProperty sampleStore okModify ⟨"4", some 1, some 1, none, false⟩).1 =
        .message 200 "Property deleted successfully" none ∧
      (GetProperties (DeleteProperty sampleStore okModify ⟨"4", some 1, some 1, none, false⟩).2
          filledRedis okCache okQuery noFilters).reply =
        .properties (sampleStore.properties.map (Preload sampleStore)) "cache" ∧
      Find (DeleteProperty sampleStore okModify ⟨"4", some 1, some 1, none, false⟩).2 okQuery
          (noFilters.conditions okQuery) ≠
        some (sampleStore.properties.map (Preload sampleStore))) := by
  decide

/-! ## clean-up after a failed save: auxiliary lemmas -/

/-- With a blob store that answers without error the clean-up loop passes every key to
`DeleteFileFromS3`, in order. -/
theorem deletedKeys_cleanupUploaded_ok (bucketName : String) (m : List (Nat × String)) :
    deletedKeys (cleanupUploaded okS3 bucketName m).1 = m.map Prod.snd := by
  rw [cleanupUploaded_returned okS3 bucketName m
    (cleanupUploaded_no_exit okS3 bucketName m (fun _ => rfl))]
  induction m with
  | nil => rfl
  | cons e m ih => simpa [deletedKeys] using ih

/-- The keys a worker puts for files that can be read, with a blob store that answers
without error. -/
theorem putKeys_fileUploadWorker_ok (bucketName imagePrefix : String) (names : List String)
    (k : Nat) :
    putKeys (fileUploadWorker okS3
      ((names.enumFrom k).map (fun e => ⟨e.1, goodFile e.2, bucketName, imagePrefix⟩))).calls =
      (names.enumFrom k).map (fun e => imagePrefix ++ "/image_" ++ toString e.1 ++ Ext e.2) := by
  induction names generalizing k with
  | nil => rfl
  | cons n names ih =>
    simp only [List.enumFrom_cons, List.map_cons]
    unfold fileUploadWorker
    have := ih (k + 1)
    simp only [putKeys, goodFile, okS3] at this
    simp [uploadFileToS3, goodFile, UploadFileToS3, okS3, putKeys, this]

theorem string_append_self_iff (s e : String) : s = s ++ e ↔ e = "" := by
  constructor
  · intro h
    have := congrArg String.data h
    simp only [String.data_append] at this
    apply String.ext
    simpa using this
  · rintro rfl; simp

/-- The keys without extension agree with the keys with extension exactly when every
extension is empty. -/
theorem range_keys_eq_iff (imagePrefix : String) (names : List String) (k : Nat) :
    (List.range' k names.length).map (fun i => imagePrefix ++ "/image_" ++ toString i) =
      (names.enumFrom k).map (fun e => imagePrefix ++ "/image_" ++ toString e.1 ++ Ext e.2) ↔
    ∀ n ∈ names, Ext n = "" := by
  induction names generalizing k with
  | nil => simp
  | cons n names ih =>
    simp only [List.length_cons, List.range'_succ, List.map_cons, List.enumFrom_cons,
      List.cons.injEq, List.mem_cons, forall_eq_or_imp]
    rw [ih (k + 1), string_append_self_iff]

/-- When the deletes are made in queue order, the clean-up of package `utils` makes the
calls of the clean-up of package `handler`. -/
theorem utils_cleanup_in_queue_order (s3 : S3Env) (bucketName imagePrefix : String)
    (count : Nat) :
    utils.cleanupS3Files s3 bucketName imagePrefix count (List.range count) =
      cleanupS3Files s3 bucketName imagePrefix count := by
  unfold utils.cleanupS3Files cleanupS3Files
  simp only
  congr 1
  rw [List.filterMap_eq_map_iff_forall_eq_some.2]
  intro i hi
  simp [List.mem_range.1 hi]

/-! ## clean-up after a failed save: the claim -/

/-- C23 (evaluation at the failing input, and the general rule). One image `a.png` is
posted, it uploads, and the final `Save` fails: `CreateProperty` puts the object under
"property/property_5/image_0.png" and `cleanupS3Files` then deletes the key
"property/property_5/image_0", so the uploaded object stays in the blob store; the
clean-up of package `utils` builds the same key. In general, for every bucket, prefix
and list of file names, the keys `cleanupS3Files` deletes are the keys under which
`uploadFileToS3` stored the files exactly when no file name has an extension. -/
theorem cleanup_keys_lack_extension :
    (CreateProperty sampleStore sampleRedis { okCreate [0] with saveErr := true }
        ⟨some (sampleForm [goodFile "a.png"]), some 1⟩).calls =
      [.put "bucket" "property/property_5/image_0.png",
       .delete "bucket" "property/property_5/image_0"] ∧
    (CreateProperty sampleStore sampleRedis { okCreate [0] with saveErr := true }
        ⟨some (sampleForm [goodFile "a.png"]), some 1⟩).reply =
      .returned (.error 500 "Failed to update property with image information") ∧
    stored (CreateProperty sampleStore sampleRedis { okCreate [0] with saveErr := true }
        ⟨some (sampleForm [goodFile "a.png"]), some 1⟩).calls =
      [("bucket", "property/property_5/image_0.png")] ∧
    deletedKeys (utils.cleanupS3Files okS3 "bucket" "property/property_5" 1 [0]).1 =
      ["property/property_5/image_0"] ∧
    (∀ (bucketName imagePrefix : String) (names : List String),
      deletedKeys (cleanupS3Files okS3 bucketName imagePrefix names.length).1 =
          putKeys (fileUploadWorker okS3
            (queueTasks bucketName imagePrefix (names.map goodFile))).calls ↔
        ∀ n ∈ names, Ext n = "") ∧
    (∀ (s3 : S3Env) (bucketName imagePrefix : String) (count : Nat),
      utils.cleanupS3Files s3 bucketName imagePrefix count (List.range count) =
        cleanupS3Files s3 bucketName imagePrefix count) := by
  refine ⟨by decide, by decide, by decide, by decide, ?_, utils_cleanup_in_queue_order⟩
  intro bucketName imagePrefix names
  unfold cleanupS3Files
  rw [deletedKeys_cleanupUploaded_ok]
  have hq : queueTasks bucketName imagePrefix (names.map goodFile) =
      (names.enumFrom 0).map (fun e => ⟨e.1, goodFile e.2, bucketName, imagePrefix⟩) := by
    unfold queueTasks List.enum
    rw [List.enumFrom_map]
    simp [List.map_map, Function.comp_def]
  rw [hq, putKeys_fileUploadWorker_ok, List.map_map, List.range_eq_range']
  exact range_keys_eq_iff imagePrefix names 0

/-! ## cache key: which requests share a key -/

theorem intercalate_go_append (acc x s : String) (l : List String) :
    String.intercalate.go (acc ++ x) s l = acc ++ String.intercalate.go x s l := by
  induction l generalizing x with
  | nil => rfl
  | cons a l ih =>
    simp only [String.intercalate.go]
    rw [String.append_assoc, String.append_assoc, ih, ← String.append_assoc]

theorem intercalate_cons_cons (s a b : String) (l : List String) :
    s.intercalate (a :: b :: l) = a ++ s ++ s.intercalate (b :: l) := by
  simp only [String.intercalate, String.intercalate.go]
  rw [String.append_assoc, intercalate_go_append, intercalate_go_append, String.append_assoc]

theorem intercalate_parts (pairs : List (String × String)) :
    (":".intercalate (pairs.map (fun e => e.1 ++ ":" ++ e.2))).data = joinPairs pairs := by
  induction pairs with
  | nil => rfl
  | cons e rest ih =>
    cases rest with
    | nil => simp [String.intercalate, String.intercalate.go, joinPairs]
    | cons e2 rest =>
      simp only [List.map_cons] at ih
      rw [List.map_cons, List.map_cons, intercalate_cons_cons]
      simp only [String.data_append, ih]
      simp [joinPairs]

theorem keyParts_eq (params : List (String × String)) :
    (sortStrings (mapKeys params)).filterMap (fun k =>
      if mapGet params k ≠ "" then some (k ++ ":" ++ mapGet params k) else none) =
    (nonEmptyParams params).map (fun e => e.1 ++ ":" ++ e.2) := by
  unfold nonEmptyParams
  rw [List.map_filterMap]
  congr 1
  funext k
  by_cases h : mapGet params k = "" <;> simp [h]

/-- Two texts made of a colon-free part followed by nothing or by a part that begins
with a colon agree only if both parts agree. -/
theorem colon_free_split (l1 l2 e1 e2 : List Char)
    (h1 : ':' ∉ l1) (h2 : ':' ∉ l2)
    (he1 : e1 = [] ∨ ∃ rest, e1 = ':' :: rest) (he2 : e2 = [] ∨ ∃ rest, e2 = ':' :: rest)
    (h : l1 ++ e1 = l2 ++ e2) : l1 = l2 ∧ e1 = e2 := by
  induction l1 generalizing l2 with
  | nil =>
    cases l2 with
    | nil => exact ⟨rfl, by simpa using h⟩
    | cons c l2 =>
      exfalso
      have hc : ':' ≠ c := fun e => h2 (e ▸ List.mem_cons_self _ _)
      rcases he1 with rfl | ⟨rest, rfl⟩
      · simp at h
      · simp only [List.nil_append, List.cons_append, List.cons.injEq] at h
        exact hc h.1
  | cons a l1 ih =>
    cases l2 with
    | nil =>
      exfalso
      have ha : ':' ≠ a := fun e => h1 (e ▸ List.mem_cons_self _ _)
      rcases he2 with rfl | ⟨rest, rfl⟩
      · simp at h
      · simp only [List.nil_append, List.cons_append, List.cons.injEq] at h
        exact ha h.1.symm
    | cons c l2 =>
      simp only [List.cons_append, List.cons.injEq] at h
      obtain ⟨r1, r2⟩ := ih l2 (fun m => h1 (List.mem_cons_of_mem _ m))
        (fun m => h2 (List.mem_cons_of_mem _ m)) h.2
      exact ⟨by rw [h.1, r1], r2⟩

theorem joinPairs_cons (e : String × String) (rest : List (String × String)) :
    ∃ tail, joinPairs (e :: rest) = e.1.data ++ ':' :: (e.2.data ++ tail) ∧
      (tail = [] ∨ ∃ r, tail = ':' :: r) ∧
      (rest = [] → tail = []) ∧ (rest ≠ [] → tail = ':' :: joinPairs rest) := by
  cases rest with
  | nil => exact ⟨[], by simp [joinPairs], Or.inl rfl, fun _ => rfl, fun h => absurd rfl h⟩
  | cons e2 rest =>
    exact ⟨':' :: joinPairs (e2 :: rest), by simp [joinPairs], Or.inr ⟨_, rfl⟩,
      fun h => by simp at h, fun _ => rfl⟩

theorem joinPairs_injective (p q : List (String × String))
    (hp : ∀ e ∈ p, ':' ∉ e.1.data ∧ ':' ∉ e.2.data)
    (hq : ∀ e ∈ q, ':' ∉ e.1.data ∧ ':' ∉ e.2.data)
    (h : joinPairs p = joinPairs q) (hne : p = [] ↔ q = []) : p = q := by
  induction p generalizing q with
  | nil => exact (hne.1 rfl).symm
  | cons e rest ih =>
    cases q with
    | nil => exact absurd (hne.2 rfl) (by simp)
    | cons e' rest' =>
      obtain ⟨t, ht, hts, htn, htc⟩ := joinPairs_cons e rest
      obtain ⟨t', ht', hts', htn', htc'⟩ := joinPairs_cons e' rest'
      rw [ht, ht'] at h
      have he := hp e (List.mem_cons_self _ _)
      have he' := hq e' (List.mem_cons_self _ _)
      obtain ⟨k1, k2⟩ := colon_free_split _ _ _ _ he.1 he'.1 (Or.inr ⟨_, rfl⟩)
        (Or.inr ⟨_, rfl⟩) h
      simp only [List.cons.injEq, true_and] at k2
      obtain ⟨v1, v2⟩ := colon_free_split _ _ _ _ he.2 he'.2 hts hts' k2
      have hee : e = e' := Prod.ext (String.ext k1) (String.ext v1)
      have hrest : rest = rest' := by
        by_cases hr : rest = []
        · by_cases hr' : rest' = []
          · rw [hr, hr']
          · rw [htn hr, htc' hr'] at v2
            simp at v2
        · by_cases hr' : rest' = []
          · rw [htc hr, htn' hr'] at v2
            simp at v2
          · rw [htc hr, htc' hr'] at v2
            simp only [List.cons.injEq, true_and] at v2
            exact ih rest' (fun x hx => hp x (List.mem_cons_of_mem _ hx))
              (fun x hx => hq x (List.mem_cons_of_mem _ hx)) v2
              ⟨fun a => absurd a hr, fun a => absurd a hr'⟩
      rw [hee, hrest]

theorem colon_mem_joinPairs (p : List (String × String)) (h : p ≠ []) : ':' ∈ joinPairs p := by
  cases p with
  | nil => exact absurd rfl h
  | cons e rest =>
    obtain ⟨t, ht, -⟩ := joinPairs_cons e rest
    rw [ht]
    simp

theorem GeneratePropertiesCacheKey_data (params : List (String × String)) :
    (GeneratePropertiesCacheKey params).data =
      if nonEmptyParams params = [] then "properties:all".data
      else "properties:".data ++ joinPairs (nonEmptyParams params) := by
  unfold GeneratePropertiesCacheKey
  simp only [keyParts_eq, List.length_eq_zero, List.map_eq_nil_iff]
  split
  · rfl
  · rw [String.data_append, intercalate_parts]

theorem mem_nonEmptyParams (params : List (String × String)) (k v : String) :
    (k, v) ∈ nonEmptyParams params ↔ mapGet params k ≠ "" ∧ v = mapGet params k := by
  unfold nonEmptyParams
  rw [List.mem_filterMap]
  constructor
  · rintro ⟨a, -, ha⟩
    by_cases h : mapGet params a = ""
    · simp [h] at ha
    · simp only [ne_eq, h, not_false_eq_true, if_true, Option.some.injEq, Prod.mk.injEq] at ha
      obtain ⟨rfl, rfl⟩ := ha
      exact ⟨h, rfl⟩
  · rintro ⟨h, rfl⟩
    refine ⟨k, ?_, by simp [h]⟩
    rw [(sortStrings_perm _).mem_iff]
    exact mem_mapKeys_of_mapGet params k h

theorem cache_key_injective_without_colon (params params' : List (String × String))
    (hp : ∀ k, mapGet params k ≠ "" → ':' ∉ k.data ∧ ':' ∉ (mapGet params k).data)
    (hp' : ∀ k, mapGet params' k ≠ "" → ':' ∉ k.data ∧ ':' ∉ (mapGet params' k).data)
    (h : GeneratePropertiesCacheKey params = GeneratePropertiesCacheKey params') :
    ∀ k, mapGet params k = mapGet params' k := by
  have hcf : ∀ (p : List (String × String)),
      (∀ k, mapGet p k ≠ "" → ':' ∉ k.data ∧ ':' ∉ (mapGet p k).data) →
      ∀ e ∈ nonEmptyParams p, ':' ∉ e.1.data ∧ ':' ∉ e.2.data := by
    intro p hyp e he
    obtain ⟨k, v⟩ := e
    obtain ⟨h1, rfl⟩ := (mem_nonEmptyParams p k v).1 he
    exact hyp k h1
  have hd := congrArg String.data h
  rw [GeneratePropertiesCacheKey_data, GeneratePropertiesCacheKey_data] at hd
  have hall : ':' ∉ "all".data := by decide
  have hPQ : nonEmptyParams params = nonEmptyParams params' := by
    by_cases e1 : nonEmptyParams params = []
    · by_cases e2 : nonEmptyParams params' = []
      · rw [e1, e2]
      · rw [if_pos e1, if_neg e2] at hd
        have : "all".data = joinPairs (nonEmptyParams params') :=
          @List.append_cancel_left Char "properties:".data _ _ hd
        exact absurd (this ▸ colon_mem_joinPairs _ e2) hall
    · by_cases e2 : nonEmptyParams params' = []
      · rw [if_neg e1, if_pos e2] at hd
        have : joinPairs (nonEmptyParams params) = "all".data :=
          @List.append_cancel_left Char "properties:".data _ _ hd
        exact absurd (this ▸ colon_mem_joinPairs _ e1) hall
      · rw [if_neg e1, if_neg e2] at hd
        exact joinPairs_injective _ _ (hcf params hp) (hcf params' hp')
          (List.append_cancel_left hd) ⟨fun a => absurd a e1, fun a => absurd a e2⟩
  intro k
  by_cases h1 : mapGet params k = ""
  · by_cases h2 : mapGet params' k = ""
    · rw [h1, h2]
    · have := (mem_nonEmptyParams params' k _).2 ⟨h2, rfl⟩
      rw [← hPQ] at this
      exact ((mem_nonEmptyParams params k _).1 this).2.symm
  · have := (mem_nonEmptyParams params k _).2 ⟨h1, rfl⟩
    rw [hPQ] at this
    exact ((mem_nonEmptyParams params' k _).1 this).2

theorem Filters_params_colon_free (f : Filters) (hf : f.colonFree) (k : String)
    (hk : mapGet f.params k ≠ "") : ':' ∉ k.data ∧ ':' ∉ (mapGet f.params k).data := by
  have hmem := mem_mapKeys_of_mapGet f.params k hk
  have hkeys : mapKeys f.params =
      ["categoryId", "typeId", "description", "minPrice", "maxPrice"] := by
    show (["categoryId", "typeId", "description", "minPrice", "maxPrice"] : List String).dedup = _
    decide
  rw [hkeys] at hmem
  simp only [List.mem_cons, List.mem_singleton, List.not_mem_nil, or_false] at hmem
  unfold Filters.colonFree at hf
  simp only [List.mem_cons, List.mem_singleton, List.not_mem_nil, or_false,
    forall_eq_or_imp, forall_eq] at hf
  obtain ⟨h1, h2, h3, h4, h5⟩ := hf
  rcases hmem with rfl | rfl | rfl | rfl | rfl
  · exact ⟨by decide, h1⟩
  · exact ⟨by decide, h2⟩
  · exact ⟨by decide, h3⟩
  · exact ⟨by decide, h4⟩
  · exact ⟨by decide, h5⟩

/-- C24 (evaluation at the failing input, and the rule that does hold). The requests
`?categoryId=1:typeId:2` and `?categoryId=1&typeId=2` differ in their non-empty
parameters and get the same key "properties:categoryId:1:typeId:2". Asked of the
database, the second request lists property 3 only; asked after the first request has
filled the cache, it is answered from the cache with the whole list, which is the answer
to the first request. Requests none of whose parameters contains a colon get the same
key only when they are the same request. -/
theorem cache_key_collision :
    GeneratePropertiesCacheKey colonFilters.params = "properties:categoryId:1:typeId:2" ∧
    GeneratePropertiesCacheKey plainFilters.params = "properties:categoryId:1:typeId:2" ∧
    mapGet colonFilters.params "typeId" = "" ∧ mapGet plainFilters.params "typeId" = "2" ∧
    (GetProperties sampleStore ⟨[]⟩ okCache okQuery plainFilters).reply =
      .properties [Preload sampleStore (sampleProperty 3 1 2 "available")] "database" ∧
    (GetProperties sampleStore
        (GetProperties sampleStore ⟨[]⟩ okCache okQuery colonFilters).redis okCache okQuery
        plainFilters).reply =
      .properties (sampleStore.properties.map (Preload sampleStore)) "cache" ∧
    (∀ f g : Filters, f.colonFree → g.colonFree →
      GeneratePropertiesCacheKey f.params = GeneratePropertiesCacheKey g.params → f = g) := by
  refine ⟨by decide, by decide, by decide, by decide, by decide, by decide, ?_⟩
  intro f g hf hg h
  have hall := cache_key_injective_without_colon f.params g.params
    (Filters_params_colon_free f hf) (Filters_params_colon_free g hg) h
  have h1 := hall "categoryId"
  have h2 := hall "typeId"
  have h3 := hall "description"
  have h4 := hall "minPrice"
  have h5 := hall "maxPrice"
  simp [mapGet, Filters.params, List.lookup] at h1 h2 h3 h4 h5
  cases f; cases g
  simp_all

/-! ## login and token verification: auxiliary lemmas -/

theorem droppedBits_small (fuel n : Nat) (h : n < 2 ^ 53) : droppedBits fuel n = 0 := by
  cases fuel with
  | zero => rfl
  | succ fuel => unfold droppedBits; rw [if_pos h]

/-- Up to 2^53 every unsigned integer is a float64. -/
theorem float64OfUint_exact (n : Nat) (h : n ≤ 2 ^ 53) : float64OfUint n = n := by
  rcases Nat.lt_or_eq_of_le h with h | rfl
  · simp [float64OfUint, droppedBits_small _ _ h, Nat.mod_one]
  · decide

/-- Below 2^64 the conversion to `uint` keeps the value. -/
theorem uintOfFloat64_small (n : Nat) (h : n ≤ 2 ^ 53) : uintOfFloat64 n = n := by
  unfold uintOfFloat64
  rw [if_pos (Nat.lt_of_le_of_lt h (by decide))]

/-- The one-token library keeps the contract of the library. -/
theorem singleTokenJWT_roundTrip (claims : LoginClaims) (key tokenString : String) :
    (singleTokenJWT claims key tokenString).RoundTrip := by
  intro c k t now _ _ _ hs hnow
  simp only [singleTokenJWT] at hs ⊢
  by_cases hc : c = claims ∧ k = key
  · obtain ⟨rfl, rfl⟩ := hc
    simp only [and_self, if_true, Option.some.injEq] at hs
    subst hs
    simp [hnow]
  · simp [hc] at hs

/-- A valid token with the decoded claims of a login verifies to the ids as they come
back from float64. -/
theorem verifyToken_decoded (jwt : JWT) (now : Nat) (tokenString : String)
    (claims : LoginClaims)
    (h : jwt.Parse tokenString "secret-key" now = .ok ⟨true, some claims.decoded⟩) :
    verifyToken jwt now tokenString =
      .ok (uintOfFloat64 (float64OfUint claims.userId),
        uintOfFloat64 (float64OfUint claims.roleId)) := by
  unfold verifyToken
  rw [h]
  rfl

/-- The user `Login` goes on with when the lookup finds a row. -/
theorem firstByEmail_found (users : List User) (email : String) (u : User)
    (h : users.find? (fun row => row.Email == email) = some u) :
    firstByEmail false users email = u := by
  simp [firstByEmail, h]

/-- Without a row of that email the lookup leaves the zero value. -/
theorem firstByEmail_unknown (firstErr : Bool) (users : List User) (email : String)
    (h : ∀ u ∈ users, u.Email ≠ email) : firstByEmail firstErr users email = zeroUser := by
  unfold firstByEmail
  split
  · rfl
  · have : users.find? (fun row => row.Email == email) = none := by
      rw [List.find?_eq_none]
      intro u hu
      simpa using h u hu
    rw [this]
    rfl

/-! ## login and token verification: the claims -/

/-- C21. For every users table, every surroundings and every decoded request body:
when no user has the given email, `Login` answers 401 "Email or password is invalid";
when the lookup finds a user and the password does not verify against the stored hash,
`Login` answers 401 "Email or password is invalid" as well. The two answers are the same
value, and it carries no token. -/
theorem login_rejection_is_uniform (users : List User) (env : AuthEnv) (reqBody : LoginBody) :
    ((∀ u ∈ users, u.Email ≠ reqBody.Email) →
      Login users env (some reqBody) = .error 401 "Email or password is invalid") ∧
    (∀ u, users.find? (fun row => row.Email == reqBody.Email) = some u →
      env.VerifyPassword reqBody.Password u.Password = false →
      Login users env (some reqBody) = .error 401 "Email or password is invalid") := by
  constructor
  · intro h
    simp [Login, firstByEmail_unknown env.firstErr users reqBody.Email h, zeroUser]
  · intro u hu hpw
    unfold Login
    cases hdb : env.firstErr with
    | true => simp [firstByEmail, zeroUser]
    | false =>
      simp only [firstByEmail_found users reqBody.Email u hu, hpw]
      split
      · rfl
      · rfl

/-- C21 on the users table of the tests: an unknown email and a wrong password for a
known email get the same answer. -/
theorem login_rejection_is_uniform_witness :
    Login sampleUsers (sampleAuth 1 1) (some ⟨"nonexistent@example.com", "password123"⟩) =
        .error 401 "Email or password is invalid" ∧
      Login sampleUsers (sampleAuth 1 1) (some ⟨"test@example.com", "wrong_password"⟩) =
        .error 401 "Email or password is invalid" ∧
      Login sampleUsers (sampleAuth 1 1) (some ⟨"test@example.com", "password123"⟩) =
        .ok "header.payload.signature" 1 "Test User" "test@example.com" :=
  ⟨(login_rejection_is_uniform sampleUsers (sampleAuth 1 1)
      ⟨"nonexistent@example.com", "password123"⟩).1 (by decide),
    (login_rejection_is_uniform sampleUsers (sampleAuth 1 1)
      ⟨"test@example.com", "wrong_password"⟩).2
      ⟨1, "Test User", "test@example.com", "$2a$10$abcdefghijklmnopqrstuvwxyz", 1⟩ (by decide)
      (by decide),
    by decide⟩

/-- C22 (with the bound under which it holds). For every user the lookup by email finds,
with a non-zero id, whose password verifies and whose claims the library signs, the id
and the role id being `uint` values and the clock within the range a float64 counts
exactly: `Login` answers 200 with the token and the id, name and email of that user, the
signed claims being userId = the id, roleId = the role id and the expiry one hour after
the login; with a library that keeps its contract, `verifyToken` on that token before
the expiry returns, without error, the id and the role id as they come back from their
float64, which are the id and the role id themselves when both are at most 2^53. -/
theorem login_round_trip (users : List User) (env : AuthEnv) (reqBody : LoginBody) (u : User)
    (tokenString : String) (verifiedAt : Nat)
    (hfound : users.find? (fun row => row.Email == reqBody.Email) = some u)
    (hdb : env.firstErr = false) (hid : u.ID ≠ 0)
    (huint : u.ID < 2 ^ 64 ∧ u.RoleID < 2 ^ 64) (hclock : env.now + 3600 ≤ 2 ^ 53)
    (hpw : env.VerifyPassword reqBody.Password u.Password = true)
    (hsign : env.jwt.SignedString ⟨u.ID, u.RoleID, env.now + 3600⟩ secretKey =
      some tokenString)
    (hlib : env.jwt.RoundTrip) (hnow : verifiedAt < env.now + 3600) :
    Login users env (some reqBody) = .ok tokenString u.ID u.Name u.Email ∧
      verifyToken env.jwt verifiedAt tokenString =
        .ok (uintOfFloat64 (float64OfUint u.ID), uintOfFloat64 (float64OfUint u.RoleID)) ∧
      (u.ID ≤ 2 ^ 53 → u.RoleID ≤ 2 ^ 53 →
        verifyToken env.jwt verifiedAt tokenString = .ok (u.ID, u.RoleID)) := by
  have hv := verifyToken_decoded env.jwt verifiedAt tokenString
    ⟨u.ID, u.RoleID, env.now + 3600⟩ (hlib _ _ _ _ huint.1 huint.2 hclock hsign hnow)
  refine ⟨?_, hv, ?_⟩
  · unfold Login
    simp only [hdb, firstByEmail_found users reqBody.Email u hfound, hid, hpw, hsign]
    simp
  · intro h1 h2
    rw [hv, float64OfUint_exact _ h1, float64OfUint_exact _ h2,
      uintOfFloat64_small _ h1, uintOfFloat64_small _ h2]

/-- C22 on the login of the tests: user 1 with role 1 logs in at time 1000 and the token
is verified at time 2000. -/
theorem login_round_trip_witness :
    Login sampleUsers (sampleAuth 1 1) (some ⟨"test@example.com", "password123"⟩) =
        .ok "header.payload.signature" 1 "Test User" "test@example.com" ∧
      verifyToken (sampleAuth 1 1).jwt 2000 "header.payload.signature" = .ok (1, 1) :=
  have h := login_round_trip sampleUsers (sampleAuth 1 1) ⟨"test@example.com", "password123"⟩
    ⟨1, "Test User", "test@example.com", "$2a$10$abcdefghijklmnopqrstuvwxyz", 1⟩
    "header.payload.signature" 2000 (by decide) rfl (by decide) (by decide) (by decide)
    (by decide) (by decide) (singleTokenJWT_roundTrip _ _ _) (by decide)
  ⟨h.1, h.2.2 (by decide) (by decide)⟩

/-- C22 (counterexample). A user with id 2^53 + 1 logs in: `Login` answers 200 with that
id, the library keeps its contract, and `verifyToken` on the issued token returns the
user id 2^53, which is not the id of the user. So it is at the top of the range: the
id 2^64 - 1 is decoded as the float64 2^64 and comes back as 2^63. -/
theorem login_round_trip_rounds_large_id :
    Login [⟨9007199254740993, "Test User", "test@example.com", "hash", 1⟩]
        (sampleAuth 9007199254740993 1) (some ⟨"test@example.com", "password123"⟩) =
      .ok "header.payload.signature" 9007199254740993 "Test User" "test@example.com" ∧
    (sampleAuth 9007199254740993 1).jwt.RoundTrip ∧
    verifyToken (sampleAuth 9007199254740993 1).jwt 2000 "header.payload.signature" =
      .ok (9007199254740992, 1) ∧
    verifyToken (sampleAuth 18446744073709551615 1).jwt 2000 "header.payload.signature" =
      .ok (9223372036854775808, 1) :=
  ⟨by decide, singleTokenJWT_roundTrip _ _ _, rfl, rfl⟩

/-- C25 (evaluation at the failing input, and the general rule). With the header value
"abc", or "Bearer" without the blank, the slice `authHeader[len("Bearer "):]` is out of
range and the handler panics, whatever the library, the time and the roles are; so does
every non-empty header value shorter than seven bytes. An absent header is answered with
401, and a header value of at least seven bytes ends in 401 "Invalid Token", in 403, or
in acceptance with `userId` and `roleId` set. -/
theorem short_authorization_header_panics :
    (∀ (jwt : JWT) (now : Nat) (roles : List Nat),
      AuthMiddleware jwt now roles "abc" = .panicked ∧
      AuthMiddleware jwt now roles "Bearer" = .panicked ∧
      AuthMiddleware jwt now roles "" = .aborted 401 "Authorization header required") ∧
    (∀ (jwt : JWT) (now : Nat) (roles : List Nat) (authHeader : String),
      authHeader ≠ "" → authHeader.utf8ByteSize < 7 →
        AuthMiddleware jwt now roles authHeader = .panicked) ∧
    (∀ (jwt : JWT) (now : Nat) (roles : List Nat) (authHeader : String),
      7 ≤ authHeader.utf8ByteSize →
        AuthMiddleware jwt now roles authHeader = .aborted 401 "Invalid Token" ∨
        AuthMiddleware jwt now roles authHeader =
          .aborted 403 "Access denied: Insufficient permissions" ∨
        ∃ userId roleId,
          verifyToken jwt now (authHeader.extract ⟨7⟩ authHeader.endPos) =
            .ok (userId, roleId) ∧
          AuthMiddleware jwt now roles authHeader = .next userId roleId) ∧
    AuthMiddleware (sampleAuth 1 1).jwt 2000 [2, 3] "Bearer header.payload.signature" =
      .aborted 403 "Access denied: Insufficient permissions" ∧
    AuthMiddleware (sampleAuth 1 1).jwt 2000 [0] "Bearer header.payload.signature" =
      .next 1 1 := by
  have h7 : "Bearer ".utf8ByteSize = 7 := by decide
  refine ⟨fun jwt now roles => ⟨rfl, rfl, rfl⟩, ?_, ?_, by decide, by decide⟩
  · intro jwt now roles authHeader hne hlen
    unfold AuthMiddleware
    rw [if_neg hne, h7]
    simp [sliceFrom, hlen]
  · intro jwt now roles authHeader hlen
    have hne : authHeader ≠ "" := by
      rintro rfl
      exact absurd hlen (by decide)
    unfold AuthMiddleware
    rw [if_neg hne, h7]
    have hs : sliceFrom authHeader 7 = some (authHeader.extract ⟨7⟩ authHeader.endPos) := by
      simp [sliceFrom, Nat.not_lt.2 hlen]
    rw [hs]
    simp only
    cases hv : verifyToken jwt now (authHeader.extract ⟨7⟩ authHeader.endPos) with
    | error e => exact Or.inl rfl
    | ok ids =>
      obtain ⟨userId, roleId⟩ := ids
      simp only
      split
      · exact Or.inr (Or.inl rfl)
      · exact Or.inr (Or.inr ⟨userId, roleId, rfl, rfl⟩)

end PropertiesGo
